import Mathlib

/-!
Verification of `lovinators-ultimate-sitemap-parser`.

This file gives a shallow embedding, in Lean 4, of the core of the
`usp` package (src/usp/helpers.py, src/usp/fetch_parse.py,
src/usp/objects/page.py, src/usp/objects/sitemap.py, src/usp/tree.py)
together with models of the external collaborators the code observes:
CPython's `urllib.parse` (urlsplit / urlparse / hostname extraction),
`decimal.Decimal` comparison, `dateutil.parser.parse`, gzip, expat's
SAX event stream, and the pure web-client contract.

Python strings are modelled as `List Char`.  Python exceptions are
modelled with `Except` / `Option`.  Machine-level details that the code
never observes (actual byte encodings, wall-clock sleeping, logging) are
modelled at the granularity the code observes; each such modelling
choice is documented at the definition it concerns.
-/

namespace USP

set_option maxRecDepth 1000000
set_option maxHeartbeats 1000000

/-- Python strings are modelled as lists of characters. -/
abbrev Str := List Char

/-- Conversion from Lean string literals to the model's string type. -/
def str (s : String) : Str := s.data

/-- Whitespace test matching Python's `str.isspace` / `re` module `\s`
for the character repertoire relevant here: the six ASCII whitespace
characters, the C1/Unicode space characters, and the information
separators.  (Python's notion is Unicode-wide; this model covers the
characters that can actually appear in the claims' inputs and in any
counterexample used below.) -/
def pyIsSpace (c : Char) : Bool :=
  c == ' ' || (9 ≤ c.val && c.val ≤ 13) ||
  (0x1c ≤ c.val && c.val ≤ 0x1f) ||
  c == '\x85' || c == '\xa0' || c == ' ' ||
  (0x2000 ≤ c.val && c.val ≤ 0x200a) ||
  c == ' ' || c == ' ' || c == ' ' || c == ' ' || c == '　'

/-- Python `str.strip()` (no argument): strip `str.isspace` characters
from both ends. -/
def pyStrip (s : Str) : Str :=
  ((s.dropWhile pyIsSpace).reverse.dropWhile pyIsSpace).reverse

/-- ASCII-only lower-casing, matching `str.lower` on the ASCII range.
(Python's `str.lower` is Unicode-wide; the URLs and robots.txt lines in
this development are ASCII.) -/
def pyToLower (c : Char) : Char := c.toLower

/-- Python `str.lower` lifted to strings. -/
def pyLower (s : Str) : Str := s.map pyToLower

/-- Python `str.splitlines()`: split on the line-boundary characters
(`\n`, `\r`, `\r\n`, `\v`, `\f`, `\x1c`, `\x1d`, `\x1e`, `\x85`,
` `, ` `), not keeping the terminators, and producing no
trailing empty line. -/
def pyIsLineBoundary (c : Char) : Bool :=
  c == '\n' || c == '\r' || c == '\x0b' || c == '\x0c' ||
  c == '\x1c' || c == '\x1d' || c == '\x1e' ||
  c == '\x85' || c == ' ' || c == ' '

def pySplitlinesAux : Str → Str → List Str
  | [], acc => if acc.isEmpty then [] else [acc.reverse]
  | '\r' :: '\n' :: rest, acc => acc.reverse :: pySplitlinesAux rest []
  | c :: rest, acc =>
    if pyIsLineBoundary c then acc.reverse :: pySplitlinesAux rest []
    else pySplitlinesAux rest (c :: acc)

/-- Python `str.splitlines()`. -/
def pySplitlines (s : Str) : List Str := pySplitlinesAux s []

/-- `sub in s` for strings: Python substring containment. -/
def strContains (s sub : Str) : Bool :=
  (List.range (s.length + 1)).any (fun i => sub.isPrefixOf (s.drop i))

/-- Index of the first occurrence of character `c` in `s` at position
`≥ start`, or `none`: Python's `str.find(c, start)` (with `-1` mapped
to `none`). -/
def strFindFrom (s : Str) (c : Char) (start : Nat) : Option Nat :=
  match (s.drop start).findIdx? (· == c) with
  | none => none
  | some i => some (start + i)

/-- Index of the last occurrence of character `c` in `s`, or `none`:
Python's `str.rfind(c)` (with `-1` mapped to `none`). -/
def strRfind (s : Str) (c : Char) : Option Nat :=
  match s.reverse.findIdx? (· == c) with
  | none => none
  | some i => some (s.length - 1 - i)

/-- Python `str.endswith` (case-sensitive). -/
def strEndsWith (s suffix : Str) : Bool := suffix.isSuffixOf s

/-! ## Model of `urllib.parse`

The code under verification calls `urlparse`, `urlunparse`,
`unquote_plus` and the `ParseResult.hostname` property.  The model
below follows CPython's `urllib.parse.urlsplit` (3.11+): WHATWG
control-character stripping, scheme detection, netloc extraction,
bracket checks, fragment/query splitting.  `_checknetloc`'s NFKC
normalization check only concerns exotic non-ASCII netlocs and is
modelled as a no-op; `_check_bracketed_host`'s `ipaddress` validation
is modelled by a simplified executable IPv6/IPvFuture shape check
(both checks depend only on the netloc, which is all the proofs below
use about them). -/

/-- The WHATWG "C0 control or space" character class used by
`urlsplit` for leading-character stripping. -/
def isC0ControlOrSpace (c : Char) : Bool := c.val ≤ 0x20

/-- `urlsplit` deletes all tab, carriage-return and newline characters
from the URL ("unsafe URL bytes"). -/
def removeUnsafeBytes (s : Str) : Str :=
  s.filter (fun c => ¬ (c == '\t' || c == '\r' || c == '\n'))

/-- Characters allowed in a URL scheme after the first (CPython's
`scheme_chars`). -/
def isSchemeChar (c : Char) : Bool :=
  c.isAlpha || c.isDigit || c == '+' || c == '-' || c == '.'

/-- Result of `urlsplit` (the components the code under verification
reads: scheme, netloc, path; query and fragment are split off but never
read). -/
structure UrlSplitResult where
  scheme : Str
  netloc : Str
  path : Str
  query : Str
  fragment : Str
  deriving Repr, DecidableEq

/-- Simplified model of CPython's `_check_bracketed_host` (which
validates a bracketed host as an IPv6 address or IPvFuture via the
`ipaddress` module): the bracketed text must be non-empty and either
start with `v`/`V` (IPvFuture) or consist of hex digits, colons and
dots.  The proofs below use only that this check is a function of the
netloc. -/
def bracketedHostOk (host : Str) : Bool :=
  ¬ host.isEmpty &&
    (host.headD 'x' == 'v' || host.headD 'x' == 'V' ||
      host.all (fun c => c.isDigit || ('a' ≤ c && c ≤ 'f') || ('A' ≤ c && c ≤ 'F') ||
        c == ':' || c == '.'))

/-- Split the netloc off `rest` (chars after the scheme), mirroring
`urlsplit`: present only when `rest` starts with `//`, and delimited by
the first `/`, `?` or `#`. -/
def isNetlocDelim (c : Char) : Bool := c == '/' || c == '?' || c == '#'

/-- CPython `urllib.parse.urlsplit` on an already-scheme-split tail.
Returns `none` where CPython raises `ValueError`. -/
def urlsplitAfterScheme (scheme rest : Str) : Option UrlSplitResult :=
  let (netloc, rest) :=
    if (str "//").isPrefixOf rest then
      ((rest.drop 2).takeWhile (fun c => ¬ isNetlocDelim c),
       (rest.drop 2).dropWhile (fun c => ¬ isNetlocDelim c))
    else ([], rest)
  if (netloc.contains '[' && ¬ netloc.contains ']') ||
     (netloc.contains ']' && ¬ netloc.contains '[') then
    none
  else if netloc.contains '[' && netloc.contains ']' &&
      ¬ bracketedHostOk (((netloc.dropWhile (· ≠ '[')).drop 1).takeWhile (· ≠ ']')) then
    none
  else
    let (rest, fragment) :=
      if rest.contains '#' then
        (rest.takeWhile (· ≠ '#'), (rest.dropWhile (· ≠ '#')).drop 1)
      else (rest, [])
    let (path, query) :=
      if rest.contains '?' then
        (rest.takeWhile (· ≠ '?'), (rest.dropWhile (· ≠ '?')).drop 1)
      else (rest, [])
    some { scheme := scheme, netloc := netloc, path := path,
           query := query, fragment := fragment }

/-- CPython `urllib.parse.urlsplit`: strip leading C0-control-or-space
characters, delete `\t`/`\r`/`\n`, detect the scheme (first `:` with an
ASCII-alphabetic first character and scheme characters up to it), then
split netloc / fragment / query.  `none` models a raised `ValueError`. -/
def urlsplitModel (url : Str) : Option UrlSplitResult :=
  let url := removeUnsafeBytes (url.dropWhile isC0ControlOrSpace)
  match strFindFrom url ':' 0 with
  | some i =>
    if 0 < i && (url.headD ' ').isAlpha &&
        ((url.take i).drop 1).all isSchemeChar then
      urlsplitAfterScheme (pyLower (url.take i)) (url.drop (i + 1))
    else
      urlsplitAfterScheme [] url
  | none => urlsplitAfterScheme [] url

/-- CPython `_splitparams`, used by `urlparse` to split `;params` off
the last path segment. -/
def splitParams (path : Str) : Str :=
  if path.contains '/' then
    match strRfind path '/' with
    | some slash =>
      match strFindFrom path ';' slash with
      | some i => path.take i
      | none => path
    | none => path
  else
    match strFindFrom path ';' 0 with
    | some i => path.take i
    | none => path

/-- CPython `urllib.parse.urlparse`: `urlsplit` plus params splitting
on the path.  (The params component itself is never read by the code
under verification.) -/
def urlparseModel (url : Str) : Option UrlSplitResult :=
  match urlsplitModel url with
  | none => none
  | some u => some { u with path := splitParams u.path }

/-- The host part of a netloc, mirroring CPython `_hostinfo`: the text
after the last `@`, then either the bracketed text (if a `[` is
present) or the text before the first `:`. -/
def hostinfoHost (netloc : Str) : Str :=
  let hostinfo := (netloc.reverse.takeWhile (· ≠ '@')).reverse
  if hostinfo.contains '[' then
    ((hostinfo.dropWhile (· ≠ '[')).drop 1).takeWhile (· ≠ ']')
  else
    hostinfo.takeWhile (· ≠ ':')

/-- The `ParseResult.hostname` property: the lower-cased host, or
`none` when it is empty. -/
def hostnameModel (netloc : Str) : Option Str :=
  let h := hostinfoHost netloc
  if h.isEmpty then none else some (pyLower h)

/-- Model of `urllib.parse.unquote_plus` restricted to what
`__response_is_gzipped_data` observes: `+` becomes a space and
`%XY` percent-escapes are decoded (ASCII range; invalid escapes are
left untouched, as CPython does). -/
def hexVal (c : Char) : Option Nat :=
  let n := c.toNat
  if 48 ≤ n ∧ n ≤ 57 then some (n - 48)
  else if 97 ≤ n ∧ n ≤ 102 then some (n - 87)
  else if 65 ≤ n ∧ n ≤ 70 then some (n - 55)
  else none

def unquotePlus : Str → Str
  | [] => []
  | '+' :: rest => ' ' :: unquotePlus rest
  | '%' :: a :: b :: rest =>
    match hexVal a, hexVal b with
    | some ha, some hb => Char.ofNat (ha * 16 + hb) :: unquotePlus rest
    | _, _ => '%' :: unquotePlus (a :: b :: rest)
  | c :: rest => c :: unquotePlus rest

/-! ## `is_http_url` and `strip_url_to_homepage` (src/usp/helpers.py) -/

/-- First character class of the URL regex: `[^\s/$.?#]`. -/
def badNetlocFirstChar (c : Char) : Bool :=
  pyIsSpace c || c == '/' || c == '$' || c == '.' || c == '?' || c == '#'

/-- Case-insensitive matcher for the literal `https?://` part of the
URL regex.  Returns the remainder after the `://` when it matches. -/
def dropHttpSchemePart (s : Str) : Option Str :=
  match s with
  | h :: t1 :: t2 :: p :: rest =>
    if (h == 'h' || h == 'H') && (t1 == 't' || t1 == 'T') &&
        (t2 == 't' || t2 == 'T') && (p == 'p' || p == 'P') then
      match rest with
      | ':' :: '/' :: '/' :: tail => some tail
      | c :: ':' :: '/' :: '/' :: tail =>
        if c == 's' || c == 'S' then some tail else none
      | _ => none
    else none
  | _ => none

/-- Tail of the URL regex after the first two post-`//` characters:
`[^\s]*$`.  Either every remaining character is non-whitespace, or all
but a single final `\n` are (Python's `$` also matches just before a
trailing newline). -/
def regexTailMatch (w : Str) : Bool :=
  w.all (fun c => ¬ pyIsSpace c) ||
    (w.getLast? == some '\n' && w.dropLast.all (fun c => ¬ pyIsSpace c))

/-- The module-level regex of helpers.py,
`^https?://[^\s/$.?#].[^\s]*$` with `re.IGNORECASE`, as an executable
matcher (`re.search` with a `^` anchor means a match at position 0).
`.` matches any character except `\n`. -/
def matchUrlRegex (s : Str) : Bool :=
  match dropHttpSchemePart s with
  | none => false
  | some rest =>
    match rest with
    | c0 :: c1 :: w => ¬ badNetlocFirstChar c0 && c1 ≠ '\n' && regexTailMatch w
    | _ => false

/-- `helpers.is_http_url`: non-empty, matches the URL regex, parses
with `urlparse` without raising, has a scheme that lower-cases to
`http`/`https`, and has a non-empty hostname.  (The `urlunparse`
round-trip call in the source cannot raise and returns nothing the
function reads.) -/
def isHttpUrl (url : Str) : Bool :=
  if url.isEmpty then false
  else if ¬ matchUrlRegex url then false
  else
    match urlparseModel url with
    | none => false
    | some u =>
      if u.scheme.isEmpty then false
      else if ¬ (pyLower u.scheme == str "http" || pyLower u.scheme == str "https") then
        false
      else ¬ (hostnameModel u.netloc).isNone

/-- `urlunparse((scheme, netloc, "/", "", "", ""))` as performed by
`strip_url_to_homepage`, following CPython `urlunsplit`: with path
`"/"` the `//` plus netloc is prepended iff the netloc is non-empty,
and `scheme:` iff the scheme is non-empty. -/
def urlunparseHomepage (scheme netloc : Str) : Str :=
  let url := if netloc.isEmpty then str "/" else str "//" ++ netloc ++ str "/"
  if scheme.isEmpty then url else scheme ++ str ":" ++ url

/-- `helpers.strip_url_to_homepage`.  Every failure exit of the source
(empty URL, `urlparse` raising, empty scheme, non-HTTP(S) scheme)
raises `StripURLToHomepageExceptionError`; `none` models that raise. -/
def stripUrlToHomepage (url : Str) : Option Str :=
  if url.isEmpty then none
  else
    match urlparseModel url with
    | none => none
    | some u =>
      if u.scheme.isEmpty then none
      else if ¬ (pyLower u.scheme == str "http" || pyLower u.scheme == str "https") then
        none
      else some (urlunparseHomepage u.scheme u.netloc)

/-- The eight characters that can appear in the scheme literal matched
by `https?` under `re.IGNORECASE`. -/
def schemeLetters : List Char := ['h', 'H', 't', 'T', 'p', 'P', 's', 'S']

/-! ## Dates, decimals and small helpers -/

/-- A parsed `datetime.datetime`.  Only construction, definedness and
equality are observed by the code under verification. -/
structure DateTime where
  year : Nat
  month : Nat
  day : Nat
  hour : Nat := 0
  minute : Nat := 0
  second : Nat := 0
  tzOffsetMinutes : Option Int := none
  deriving Repr, DecidableEq

def digitsToNat (s : Str) : Nat :=
  s.foldl (fun acc c => acc * 10 + (c.toNat - '0'.toNat)) 0

/-- Take exactly `n` digits off the front. -/
def takeDigits (s : Str) (n : Nat) : Option (Nat × Str) :=
  let d := s.take n
  if d.length == n && d.all Char.isDigit then some (digitsToNat d, s.drop n)
  else none

/-- Model of `dateutil.parser.parse`, the lenient date parser behind
`parse_iso8601_date` / `parse_rfc2822_date`.  Modelled: the ISO-8601
shapes `YYYY-MM-DD` and `YYYY-MM-DDTHH:MM:SS` with an optional `Z` or
`±HH:MM` zone; every other input is a parse error.  (dateutil accepts
more shapes; the claims below only exercise clearly-valid ISO strings
and strings that no date parser accepts, so this restriction is
inessential.)  `none` models a raised `ParserError`. -/
def dateutilParse (s : Str) : Option DateTime := do
  let (y, s) ← takeDigits s 4
  let ('-' :: s) := s | none
  let (mo, s) ← takeDigits s 2
  let ('-' :: s) := s | none
  let (d, s) ← takeDigits s 2
  if mo < 1 || 12 < mo || d < 1 || 31 < d then none
  else
    match s with
    | [] => some { year := y, month := mo, day := d }
    | 'T' :: s => do
      let (h, s) ← takeDigits s 2
      let (':' :: s) := s | none
      let (mi, s) ← takeDigits s 2
      let (':' :: s) := s | none
      let (sec, s) ← takeDigits s 2
      if 23 < h || 59 < mi || 60 < sec then none
      else
        match s with
        | [] => some { year := y, month := mo, day := d, hour := h, minute := mi,
                       second := sec }
        | ['Z'] => some { year := y, month := mo, day := d, hour := h, minute := mi,
                          second := sec, tzOffsetMinutes := some 0 }
        | sgn :: rest =>
          if sgn == '+' || sgn == '-' then do
            let (zh, rest) ← takeDigits rest 2
            let (':' :: rest) := rest | none
            let (zm, rest) ← takeDigits rest 2
            if rest.isEmpty && zh ≤ 23 && zm ≤ 59 then
              let off : Int := (zh * 60 + zm : Nat)
              some { year := y, month := mo, day := d, hour := h, minute := mi,
                     second := sec,
                     tzOffsetMinutes := some (if sgn == '-' then -off else off) }
            else none
          else none
    | _ => none

/-- `helpers.parse_iso8601_date`: raises `SitemapExceptionError` on an
empty string (modelled by the caller testing emptiness first — in the
code paths below the argument is always non-empty because it came
through `html_unescape_strip`), then defers to the lenient parser.
`none` models a raised exception. -/
def parseIso8601Date (s : Str) : Option DateTime :=
  if s.isEmpty then none else dateutilParse s

/-- `helpers.parse_rfc2822_date` simply calls `parse_iso8601_date`. -/
def parseRfc2822Date (s : Str) : Option DateTime := parseIso8601Date s

/-- Model of `html.unescape` for the five standard entities (the
documents in this development contain no other entity references; the
code applies it to already-expanded expat character data, where it is
almost always the identity). -/
def htmlUnescape : Str → Str
  | [] => []
  | '&' :: 'a' :: 'm' :: 'p' :: ';' :: rest => '&' :: htmlUnescape rest
  | '&' :: 'l' :: 't' :: ';' :: rest => '<' :: htmlUnescape rest
  | '&' :: 'g' :: 't' :: ';' :: rest => '>' :: htmlUnescape rest
  | '&' :: 'q' :: 'u' :: 'o' :: 't' :: ';' :: rest => '"' :: htmlUnescape rest
  | '&' :: '#' :: '3' :: '9' :: ';' :: rest => '\'' :: htmlUnescape rest
  | c :: rest => c :: htmlUnescape rest

/-- `helpers.html_unescape_strip`: `None` passes through; otherwise
unescape, strip, and turn an empty result into `None`. -/
def htmlUnescapeStrip : Option Str → Option Str
  | none => none
  | some s =>
    if s.isEmpty then some s
    else
      let s := pyStrip (htmlUnescape s)
      if s.isEmpty then none else some s

/-- Python truthiness for optional strings: `None` and `""` are falsy. -/
def pyTruthy : Option Str → Bool
  | none => false
  | some s => ¬ s.isEmpty

/-- Model of the `decimal.Decimal` string constructor, as a rational:
optional sign, digits with an optional fraction and an optional
decimal exponent.  `none` models a raised
`decimal.InvalidOperation`.  (The special values `NaN` / `Infinity`
are outside this numeric model; the claims concern numeric priority
values.) -/
def decimalParse (s : Str) : Option ℚ :=
  let (sgn, s) :=
    match s with
    | '-' :: rest => ((-1 : Int), rest)
    | '+' :: rest => ((1 : Int), rest)
    | _ => ((1 : Int), s)
  let intPart := s.takeWhile Char.isDigit
  let s := s.dropWhile Char.isDigit
  let (fracPart, s) :=
    match s with
    | '.' :: rest => (rest.takeWhile Char.isDigit, rest.dropWhile Char.isDigit)
    | _ => ([], s)
  if intPart.isEmpty && fracPart.isEmpty then none
  else
    let mantissa : Int :=
      sgn * ((digitsToNat intPart) * 10 ^ fracPart.length + digitsToNat fracPart)
    match s with
    | [] => some (mkRat mantissa (10 ^ fracPart.length))
    | e :: rest =>
      if e == 'e' || e == 'E' then
        let (eneg, rest) :=
          match rest with
          | '-' :: r => (true, r)
          | '+' :: r => (false, r)
          | _ => (false, rest)
        if rest.isEmpty || ¬ rest.all Char.isDigit then none
        else if eneg then
          some (mkRat mantissa (10 ^ fracPart.length * 10 ^ digitsToNat rest))
        else
          some (mkRat (mantissa * 10 ^ digitsToNat rest) (10 ^ fracPart.length))
      else none

/-! ## Data model (src/usp/objects/page.py, src/usp/objects/sitemap.py) -/

/-- `SITEMAP_PAGE_DEFAULT_PRIORITY = Decimal("0.5")`. -/
def sitemapPageDefaultPriority : ℚ := 1 / 2

/-- `SitemapPageChangeFrequency`. -/
inductive SitemapPageChangeFrequency
  | always | hourly | daily | weekly | monthly | yearly | never
  deriving Repr, DecidableEq

/-- The enum value lookup: `SitemapPageChangeFrequency.has_value` plus
the enum constructor.  `none` corresponds to `has_value` being false. -/
def SitemapPageChangeFrequency.ofValue? (s : Str) : Option SitemapPageChangeFrequency :=
  if s == str "always" then some .always
  else if s == str "hourly" then some .hourly
  else if s == str "daily" then some .daily
  else if s == str "weekly" then some .weekly
  else if s == str "monthly" then some .monthly
  else if s == str "yearly" then some .yearly
  else if s == str "never" then some .never
  else none

/-- `SitemapNewsStory`.  The constructor stores `publish_date` exactly
as passed; the RSS/Atom parsers pass `None` when no publication date
was seen, so the field is optional in the model even though the
source's type annotation says `datetime.datetime`. -/
structure SitemapNewsStory where
  title : Str
  publishDate : Option DateTime
  publicationName : Option Str := none
  publicationLanguage : Option Str := none
  access : Option Str := none
  genres : List Str := []
  keywords : List Str := []
  stockTickers : List Str := []
  deriving Repr, DecidableEq

/-- `SitemapPage`. -/
structure SitemapPage where
  url : Str
  priority : ℚ := sitemapPageDefaultPriority
  lastModified : Option DateTime := none
  changeFrequency : Option SitemapPageChangeFrequency := none
  newsStory : Option SitemapNewsStory := none
  deriving Repr, DecidableEq

/-- The concrete page-holding sitemap classes
(`PagesXMLSitemap`, `PagesTextSitemap`, `PagesRSSSitemap`,
`PagesAtomSitemap`), distinguished only by their type tag. -/
inductive PagesVariant
  | xml | text | rss | atom
  deriving Repr, DecidableEq

/-- The concrete index sitemap classes (`IndexXMLSitemap`,
`IndexRobotsTxtSitemap`, `IndexWebsiteSitemap`), distinguished only by
their type tag. -/
inductive IndexVariant
  | xmlIndex | robotsTxt | website
  deriving Repr, DecidableEq

/-- The sitemap class hierarchy as a sum: `InvalidSitemap`, the
`AbstractPagesSitemap` subclasses and the `AbstractIndexSitemap`
subclasses.  A pages sitemap's list is spooled to a pickled temporary
file in the source (`AbstractPagesSitemap.__init__` / `.pages`); the
pickle round-trip is modelled as in-line storage, which is what the
`pages` property returns. -/
inductive Sitemap
  | invalid (url : Str) (reason : Str)
  | pages (variant : PagesVariant) (url : Str) (pages : List SitemapPage)
  | index (variant : IndexVariant) (url : Str) (subSitemaps : List Sitemap)
  deriving Repr

mutual

/-- Boolean structural equality on sitemaps (used to derive decidable
equality for the nested inductive). -/
def Sitemap.beq : Sitemap → Sitemap → Bool
  | .invalid u r, .invalid u' r' => u == u' && r == r'
  | .pages v u p, .pages v' u' p' => v == v' && u == u' && p == p'
  | .index v u s, .index v' u' s' => v == v' && u == u' && Sitemap.listBeq s s'
  | _, _ => false

def Sitemap.listBeq : List Sitemap → List Sitemap → Bool
  | [], [] => true
  | a :: as, b :: bs => Sitemap.beq a b && Sitemap.listBeq as bs
  | _, _ => false

end

mutual

theorem Sitemap.beq_iff : ∀ a b : Sitemap, Sitemap.beq a b = true ↔ a = b
  | .invalid u r, .invalid u' r' => by
    simp [Sitemap.beq]
  | .pages v u p, .pages v' u' p' => by
    simp [Sitemap.beq, and_assoc]
  | .index v u s, .index v' u' s' => by
    simp [Sitemap.beq, Sitemap.listBeq_iff s s', and_assoc]
  | .invalid _ _, .pages _ _ _ => by simp [Sitemap.beq]
  | .invalid _ _, .index _ _ _ => by simp [Sitemap.beq]
  | .pages _ _ _, .invalid _ _ => by simp [Sitemap.beq]
  | .pages _ _ _, .index _ _ _ => by simp [Sitemap.beq]
  | .index _ _ _, .invalid _ _ => by simp [Sitemap.beq]
  | .index _ _ _, .pages _ _ _ => by simp [Sitemap.beq]

theorem Sitemap.listBeq_iff : ∀ a b : List Sitemap, Sitemap.listBeq a b = true ↔ a = b
  | [], [] => by simp [Sitemap.listBeq]
  | a :: as, b :: bs => by
    simp [Sitemap.listBeq, Sitemap.beq_iff a b, Sitemap.listBeq_iff as bs]
  | [], _ :: _ => by simp [Sitemap.listBeq]
  | _ :: _, [] => by simp [Sitemap.listBeq]

end

instance : DecidableEq Sitemap :=
  fun a b => decidable_of_iff _ (Sitemap.beq_iff a b)

/-- The `url` property shared by every sitemap class. -/
def Sitemap.url : Sitemap → Str
  | .invalid u _ => u
  | .pages _ u _ => u
  | .index _ u _ => u

/-- `isinstance(s, InvalidSitemap)`. -/
def Sitemap.isInvalid : Sitemap → Bool
  | .invalid _ _ => true
  | _ => false

/-- `all_pages()`: the `InvalidSitemap` override yields nothing, the
`AbstractPagesSitemap` override yields the stored pages, and the
`AbstractIndexSitemap` override chains `all_pages()` over the
sub-sitemaps in order. -/
def Sitemap.allPages : Sitemap → List SitemapPage
  | .invalid _ _ => []
  | .pages _ _ ps => ps
  | .index _ _ subs => subs.attach.map (fun s => s.1.allPages) |>.flatten
decreasing_by
  have := List.sizeOf_lt_of_mem s.2
  simp only [Sitemap.index.sizeOf_spec]
  omega

/-! ## The Python `==` operator on sitemap objects (C10)

The `__eq__` methods of `AbstractSitemap` and its subclasses raise
`NotImplementedError` when the other operand fails their `isinstance`
check (instead of returning the `NotImplemented` singleton, which
would fall back to the reflected comparison).  `Except Unit Bool`
models this: `.error ()` is a raised `NotImplementedError`.
CPython's per-element identity shortcut in list comparison is not
modelled (object identity is unobservable in a value model; the
shortcut changes no comparison between equal-valued distinct
objects). -/

/-- `SitemapNewsStory.__eq__` under `!=` dispatch on optional stories:
`None != None` is false; a story against `None` dispatches into
`SitemapNewsStory.__eq__`, whose `isinstance` check raises
`NotImplementedError`; two stories compare field by field (no field
comparison can raise: strings, optional strings, string lists and
optional datetimes all compare to each other and to `None` without
raising). -/
def pyEqNewsStoryOpt : Option SitemapNewsStory → Option SitemapNewsStory →
    Except Unit Bool
  | none, none => .ok true
  | some a, some b => .ok (a == b)
  | none, some _ => .error ()
  | some _, none => .error ()

/-- `SitemapPage.__eq__`: early-`False` returns on `url`, `priority`,
`last_modified` and `change_frequency` (none of which can raise), then
the news-story comparison, which can raise. -/
def pyEqPage (a b : SitemapPage) : Except Unit Bool :=
  if ¬ (a.url == b.url) then .ok false
  else if ¬ (a.priority == b.priority) then .ok false
  else if ¬ (a.lastModified == b.lastModified) then .ok false
  else if ¬ (a.changeFrequency == b.changeFrequency) then .ok false
  else pyEqNewsStoryOpt a.newsStory b.newsStory

/-- CPython list equality on page lists: unequal lengths short-circuit
to `False` without comparing elements; otherwise elements are compared
left to right, stopping at the first unequal pair; a raising element
comparison propagates. -/
def pyEqPageListGo : List SitemapPage → List SitemapPage → Except Unit Bool
  | [], _ => .ok true
  | _, [] => .ok true
  | a :: as, b :: bs => do
    let e ← pyEqPage a b
    if e then pyEqPageListGo as bs else .ok false

def pyEqPageList (a b : List SitemapPage) : Except Unit Bool :=
  if a.length ≠ b.length then .ok false else pyEqPageListGo a b

mutual

/-- The Python `==` operator on sitemap objects.  Dispatch is by the
left operand's class: `InvalidSitemap.__eq__` requires an
`InvalidSitemap` (else raises) and compares `url` and `reason`;
`AbstractPagesSitemap.__eq__` requires any pages sitemap and compares
`url` and `pages`; `AbstractIndexSitemap.__eq__` requires any index
sitemap and compares `url` and `sub_sitemaps`.  No concrete subclass
overrides `__eq__`, so the concrete variant tags never participate. -/
def pyEqSitemap : Sitemap → Sitemap → Except Unit Bool
  | .invalid u r, .invalid u' r' =>
    .ok (decide (u = u') && decide (r = r'))
  | .invalid _ _, .pages _ _ _ => .error ()
  | .invalid _ _, .index _ _ _ => .error ()
  | .pages _ u p, .pages _ u' p' =>
    if ¬ (u == u') then .ok false else pyEqPageList p p'
  | .pages _ _ _, .invalid _ _ => .error ()
  | .pages _ _ _, .index _ _ _ => .error ()
  | .index _ u s, .index _ u' s' =>
    if ¬ (u == u') then .ok false else pyEqSitemapList s s'
  | .index _ _ _, .invalid _ _ => .error ()
  | .index _ _ _, .pages _ _ _ => .error ()

/-- CPython list equality on sub-sitemap lists (lengths first, then
elementwise with propagating raises). -/
def pyEqSitemapList (a b : List Sitemap) : Except Unit Bool :=
  if a.length ≠ b.length then .ok false else pyEqSitemapListGo a b

def pyEqSitemapListGo : List Sitemap → List Sitemap → Except Unit Bool
  | [], _ => .ok true
  | _, [] => .ok true
  | a :: as, b :: bs => do
    let e ← pyEqSitemap a b
    if e then pyEqSitemapListGo as bs else .ok false

end

/-- The equality "family" of a sitemap value: which `__eq__`
implementation its class inherits (0 = `InvalidSitemap`,
1 = `AbstractPagesSitemap`, 2 = `AbstractIndexSitemap`). -/
def Sitemap.family : Sitemap → Nat
  | .invalid _ _ => 0
  | .pages _ _ _ => 1
  | .index _ _ _ => 2

/-- Replace every concrete variant tag with a canonical one, keeping
everything `__eq__` actually compares. -/
def Sitemap.eraseVariant : Sitemap → Sitemap
  | .invalid u r => .invalid u r
  | .pages _ u p => .pages .xml u p
  | .index _ u s => .index .xmlIndex u (s.attach.map (fun x => x.1.eraseVariant))
decreasing_by
  have := List.sizeOf_lt_of_mem x.2
  simp only [Sitemap.index.sizeOf_spec]
  omega

/-! ## Web-client contract and byte layer -/

/-- Raw response bytes at the granularity the code observes: either
plain text (already UTF-8, possibly with a BOM) or a valid gzip
archive wrapping text.  (`helpers.gunzip` / `.decode("utf-8-sig")`
only distinguish these cases.) -/
inductive ByteData
  | plain (text : Str)
  | gzipped (text : Str)
  deriving Repr, DecidableEq

/-- `helpers.gunzip`: succeeds exactly on gzip data (the source also
rejects empty input before attempting decompression; decompressing
non-gzip bytes raises, which is wrapped into `GunzipExceptionError`).
`none` models the raised `GunzipExceptionError`. -/
def gunzipModel : ByteData → Option ByteData
  | .gzipped text => some (.plain text)
  | .plain _ => none

/-- `bytes.decode("utf-8-sig", errors="replace")`: strips a leading
BOM from plain text; decoding raw gzip bytes as UTF-8 produces
replacement-character garbage, modelled by a `\xfffd` marker prefix. -/
def decodeUtf8Sig : ByteData → Str
  | .plain text =>
    if (str "﻿").isPrefixOf text then text.drop 1 else text
  | .gzipped text => '�' :: text

/-- A web-client success response (`AbstractWebClientSuccessResponse`):
the body bytes and the `Content-Type` header value, which is all the
fetch path reads. -/
structure SuccessResponse where
  body : ByteData
  contentType : Option Str := none
  deriving Repr, DecidableEq

/-- A web-client response: success, or an error response carrying
`message()` and `retryable()`. -/
inductive WebResponse
  | success (resp : SuccessResponse)
  | errorResp (message : Str) (retryable : Bool)
  deriving Repr, DecidableEq

/-- The web-client contract (`AbstractWebClient`), as a pure function
from URL to response.  `set_max_response_data_length` configures
truncation inside the client and is not observable in this model
(bodies are given directly). -/
structure WebClient where
  get : Str → WebResponse

/-- `helpers.get_url_retry_on_client_errors` with its default
`retry_count=5`: issue `get`, return immediately on success or on a
non-retryable error, otherwise sleep (not modelled) and retry; after
the attempts are exhausted return the last response.  With a pure
client every attempt returns the same response. -/
def getUrlRetryGo (client : WebClient) (url : Str) : Nat → WebResponse
  | 0 => client.get url
  | n + 1 =>
    match client.get url with
    | .errorResp msg retryable =>
      if retryable then getUrlRetryGo client url n else .errorResp msg retryable
    | r => r

def getUrlRetry (client : WebClient) (url : Str) : WebResponse :=
  getUrlRetryGo client url 4

/-- `helpers.__response_is_gzipped_data`: the percent-decoded URL path
ends in `.gz` (case-insensitively) or the `Content-Type` header
contains `gzip`. -/
def responseIsGzippedData (url : Str) (resp : SuccessResponse) : Bool :=
  let urlPath :=
    match urlparseModel url with
    | some u => unquotePlus u.path
    | none => []
  let contentType := resp.contentType.getD []
  strEndsWith (pyLower urlPath) (str ".gz") || strContains (pyLower contentType) (str "gzip")

/-- `helpers.ungzipped_response_content`: gunzip when the response
looks gzipped, falling back to the original bytes when gunzipping
raises (warn-and-continue), then decode. -/
def ungzippedResponseContent (url : Str) (resp : SuccessResponse) : Str :=
  let data := resp.body
  let data :=
    if responseIsGzippedData url resp then
      match gunzipModel data with
      | some d => d
      | none => data
    else data
  decodeUtf8Sig data

/-! ## Exceptions

The exception kinds the fetch/parse pipeline can raise
(src/usp/exceptions.py plus the library exceptions that escape into
this code).  `recursionExceeded`, `notHttpUrl` and `dateStringUnset`
are the three `SitemapExceptionError` raises; `xmlParsingError` is
`SitemapXMLParsingExceptionError`; `dateParseError` is
`dateutil.parser.ParserError` (a `ValueError`) escaping from
`dateutil_parse`; `decimalInvalidOperation` is
`decimal.InvalidOperation` escaping from `Decimal(...)`;
`notRobotsTxtUrl` is the `SitemapExceptionError` raised by the
robots.txt parser constructor on a URL without the robots.txt suffix.
`fuelExhausted` is a modelling artifact of the fuel-based recursion
(the Python analogue is stack exhaustion; all theorems below either
supply ample fuel or hold for every fuel). -/
inductive PyError
  | recursionExceeded (url : Str)
  | notHttpUrl (url : Str)
  | notRobotsTxtUrl (url : Str)
  | xmlParsingError (msg : Str)
  | dateParseError (dateString : Str)
  | decimalInvalidOperation (s : Str)
  | dateStringUnset
  | fuelExhausted
  deriving Repr, DecidableEq

/-! ## Model of expat's SAX event stream

`XMLSitemapParser` drives `xml.parsers.expat` with
`namespace_separator=" "`: element names arrive as
`"namespaceURI localName"` for elements in a namespace and as the
plain local name otherwise; `xmlns` declarations are consumed by expat
and not reported as attributes; unprefixed attributes keep their plain
names.  The tokenizer below produces that event stream for the XML
subset exercised here (prolog, comments, elements, attributes,
character data; entity references are passed through as text — the
documents in this development contain none, and the code re-unescapes
character data with `html.unescape` anyway).  A malformed document
yields the events up to the error plus an error flag, matching expat
raising mid-`Parse` after having delivered the earlier events. -/

inductive XmlEvent
  | elementStart (name : Str) (attrs : List (Str × Str))
  | elementEnd (name : Str)
  | charData (data : Str)
  deriving Repr, DecidableEq

/-- One namespace scope: `none ↦ uri` is the default namespace,
`some p ↦ uri` binds prefix `p`. -/
abbrev NsScope := List (Option Str × Str)

def nsLookup (envs : List NsScope) (key : Option Str) : Option Str :=
  match envs with
  | [] => none
  | scope :: outer =>
    match scope.find? (fun kv => kv.1 == key) with
    | some kv => some kv.2
    | none => nsLookup outer key

/-- Resolve a raw (possibly prefixed) element name against the
namespace environment, producing expat's separator-joined form.
`none` models an expat error (unbound prefix). -/
def resolveElementName (envs : List NsScope) (raw : Str) : Option Str :=
  if raw.contains ':' then
    let p := raw.takeWhile (· ≠ ':')
    let localName := (raw.dropWhile (· ≠ ':')).drop 1
    match nsLookup envs (some p) with
    | some uri => some (uri ++ ' ' :: localName)
    | none => none
  else
    match nsLookup envs none with
    | some uri => some (uri ++ ' ' :: raw)
    | none => some raw

/-- Resolve an attribute name: the default namespace does not apply to
attributes; prefixed attribute names are namespace-expanded. -/
def resolveAttrName (envs : List NsScope) (raw : Str) : Option Str :=
  if raw.contains ':' then
    let p := raw.takeWhile (· ≠ ':')
    let localName := (raw.dropWhile (· ≠ ':')).drop 1
    match nsLookup envs (some p) with
    | some uri => some (uri ++ ' ' :: localName)
    | none => none
  else some raw

def isXmlNameChar (c : Char) : Bool :=
  ¬ (pyIsSpace c || c == '>' || c == '/' || c == '=')

/-- Lex the attribute list of a start tag.  Returns the raw
`(name, value)` pairs, the input after the closing `>`, and whether
the tag was self-closing.  `none` models an expat syntax error. -/
def lexAttrsGo (fuel : Nat) (s : Str) (acc : List (Str × Str)) :
    Option (List (Str × Str) × Str × Bool) :=
  match fuel with
  | 0 => none
  | fuel + 1 =>
    let s := s.dropWhile pyIsSpace
    match s with
    | '>' :: rest => some (acc.reverse, rest, false)
    | '/' :: '>' :: rest => some (acc.reverse, rest, true)
    | [] => none
    | _ =>
      let name := s.takeWhile isXmlNameChar
      let s := s.dropWhile isXmlNameChar
      if name.isEmpty then none
      else
        let s := s.dropWhile pyIsSpace
        match s with
        | '=' :: s =>
          let s := s.dropWhile pyIsSpace
          match s with
          | q :: s =>
            if q == '"' || q == '\'' then
              let v := s.takeWhile (· ≠ q)
              match s.dropWhile (· ≠ q) with
              | _ :: rest => lexAttrsGo fuel rest ((name, v) :: acc)
              | [] => none
            else none
          | [] => none
        | _ => none

/-- Extract the namespace declarations of a raw attribute list into a
scope, and the remaining (reported) attributes. -/
def scopeOfAttrs (attrs : List (Str × Str)) : NsScope :=
  attrs.filterMap (fun kv =>
    if kv.1 == str "xmlns" then some (none, kv.2)
    else if (str "xmlns:").isPrefixOf kv.1 then some (some (kv.1.drop 6), kv.2)
    else none)

def reportedAttrs (attrs : List (Str × Str)) : List (Str × Str) :=
  attrs.filter (fun kv => ¬ (kv.1 == str "xmlns" || (str "xmlns:").isPrefixOf kv.1))

/-- Skip until (and past) the terminator `term`; `none` if absent. -/
def skipPast (fuel : Nat) (term : Str) (s : Str) : Option Str :=
  match fuel with
  | 0 => none
  | fuel + 1 =>
    match s with
    | [] => none
    | _ :: rest => if term.isPrefixOf s then some (s.drop term.length) else skipPast fuel term rest

/-- The tokenizer's result: the delivered events and whether the parse
ended in an expat error (after delivering them). -/
structure ExpatResult where
  events : List XmlEvent
  errored : Bool
  deriving Repr, DecidableEq

/-- Main tokenizer loop.  `envs` is the namespace environment stack,
`open stack` the raw names of currently open elements. -/
def expatGo (fuel : Nat) (s : Str) (envs : List NsScope) (stack : List Str)
    (acc : List XmlEvent) : ExpatResult :=
  match fuel with
  | 0 => { events := acc.reverse, errored := true }
  | fuel + 1 =>
    match s with
    | [] => { events := acc.reverse, errored := ¬ stack.isEmpty }
    | '<' :: '?' :: rest =>
      match skipPast (rest.length + 1) (str "?>") rest with
      | some rest => expatGo fuel rest envs stack acc
      | none => { events := acc.reverse, errored := true }
    | '<' :: '!' :: '-' :: '-' :: rest =>
      match skipPast (rest.length + 1) (str "-->") rest with
      | some rest => expatGo fuel rest envs stack acc
      | none => { events := acc.reverse, errored := true }
    | '<' :: '!' :: rest =>
      match skipPast (rest.length + 1) (str ">") rest with
      | some rest => expatGo fuel rest envs stack acc
      | none => { events := acc.reverse, errored := true }
    | '<' :: '/' :: rest =>
      let rawName := (rest.takeWhile (· ≠ '>')).dropWhile pyIsSpace
      let rawName := (rawName.reverse.dropWhile pyIsSpace).reverse
      match rest.dropWhile (· ≠ '>') with
      | _ :: rest =>
        match stack with
        | top :: stack' =>
          if top == rawName then
            match resolveElementName envs rawName with
            | some resolved =>
              expatGo fuel rest (envs.drop 1) stack' (.elementEnd resolved :: acc)
            | none => { events := acc.reverse, errored := true }
          else { events := acc.reverse, errored := true }
        | [] => { events := acc.reverse, errored := true }
      | [] => { events := acc.reverse, errored := true }
    | '<' :: rest =>
      let rawName := rest.takeWhile isXmlNameChar
      let afterName := rest.dropWhile isXmlNameChar
      if rawName.isEmpty then { events := acc.reverse, errored := true }
      else
        match lexAttrsGo (afterName.length + 1) afterName [] with
        | none => { events := acc.reverse, errored := true }
        | some (rawAttrs, rest, selfClosing) =>
          let envs' := scopeOfAttrs rawAttrs :: envs
          match resolveElementName envs' rawName with
          | none => { events := acc.reverse, errored := true }
          | some resolved =>
            let resolvedAttrs := (reportedAttrs rawAttrs).filterMap
              (fun kv => (resolveAttrName envs' kv.1).map (fun n => (n, kv.2)))
            if resolvedAttrs.length ≠ (reportedAttrs rawAttrs).length then
              { events := acc.reverse, errored := true }
            else if selfClosing then
              expatGo fuel rest envs stack
                (.elementEnd resolved :: .elementStart resolved resolvedAttrs :: acc)
            else
              expatGo fuel rest envs' (rawName :: stack)
                (.elementStart resolved resolvedAttrs :: acc)
    | _ =>
      let text := s.takeWhile (· ≠ '<')
      let rest := s.dropWhile (· ≠ '<')
      if stack.isEmpty then
        if text.all pyIsSpace then expatGo fuel rest envs stack acc
        else { events := acc.reverse, errored := true }
      else expatGo fuel rest envs stack (.charData text :: acc)

/-- The expat `Parse(content, True)` call: tokenize the whole content,
delivering events until the end or the first syntax error. -/
def expatParse (content : Str) : ExpatResult :=
  expatGo (content.length + 1) content [] [] []

/-! ## XML sitemap parsers (src/usp/fetch_parse.py) -/

/-- Python `str.split(c)` on a single-character separator (keeps empty
parts). -/
def splitOnCharAux (c : Char) : Str → Str → List Str
  | [], acc => [acc.reverse]
  | x :: rest, acc =>
    if x == c then acc.reverse :: splitOnCharAux c rest []
    else splitOnCharAux c rest (x :: acc)

def splitOnChar (s : Str) (c : Char) : List Str := splitOnCharAux c s []

/-- `XMLSitemapParser.__normalize_xml_element_name`: split the
expat-reported name on the namespace separator; a namespace URL
containing `/sitemap/` maps to the `sitemap:` prefix, one containing
`/sitemap-news/` to `news:`, anything else (or no namespace) to the
plain element name; more than two parts raises. -/
def normalizeXmlName (name : Str) : Except PyError Str :=
  match splitOnChar name ' ' with
  | [nm] => .ok nm
  | [ns, nm] =>
    if strContains ns (str "/sitemap/") then .ok (str "sitemap:" ++ nm)
    else if strContains ns (str "/sitemap-news/") then .ok (str "news:" ++ nm)
    else .ok nm
  | _ => .error (.xmlParsingError (str "Unable to determine namespace for element"))

/-- The character-data bookkeeping shared by every concrete XML parser
(`AbstractXMLSitemapParser`). -/
structure BaseXmlState where
  lastCharData : Str := []
  lastWasCharData : Bool := false
  deriving Repr, DecidableEq

/-- `AbstractXMLSitemapParser.xml_element_start`. -/
def baseStart (b : BaseXmlState) : BaseXmlState :=
  { b with lastWasCharData := false }

/-- `AbstractXMLSitemapParser.xml_element_end`: every element end
resets the accumulated character data. -/
def baseEnd (_ : BaseXmlState) : BaseXmlState :=
  { lastCharData := [], lastWasCharData := false }

/-- `AbstractXMLSitemapParser.xml_char_data`: append when the previous
handler call was also character data, else replace. -/
def baseChar (b : BaseXmlState) (data : Str) : BaseXmlState :=
  { lastCharData := if b.lastWasCharData then b.lastCharData ++ data else data,
    lastWasCharData := true }

/-- `PagesXMLSitemapParser.Page`: the raw per-`<url>` fields collected
while parsing (all Python strings or `None`). -/
structure RawPage where
  url : Option Str := none
  lastModified : Option Str := none
  changeFrequency : Option Str := none
  priority : Option Str := none
  newsTitle : Option Str := none
  newsPublishDate : Option Str := none
  newsPublicationName : Option Str := none
  newsPublicationLanguage : Option Str := none
  newsAccess : Option Str := none
  newsGenres : Option Str := none
  newsKeywords : Option Str := none
  newsStockTickers : Option Str := none
  deriving Repr, DecidableEq

/-- `decimal.Decimal.compare` on finite values: `-1`, `0` or `1` (as a
`Decimal`, modelled as a rational). -/
def decimalCompare (a b : ℚ) : ℚ :=
  if a < b then -1 else if a == b then 0 else 1

/-- The priority bounds test of `PagesXMLSitemapParser.Page.page`,
modelled faithfully from the source expression

`comp_zero in {Decimal("0"), Decimal("1") and comp_one in {Decimal("0"), Decimal("-1")}}`:

`Decimal("1")` is truthy, so `Decimal("1") and X` evaluates to the
boolean `X`; Python set membership then compares `comp_zero` against
`Decimal("0")` and against that boolean numerically (`True == 1`,
`False == 0` hold for `Decimal` comparisons, and hashes agree). -/
def priorityInRangeCheck (q : ℚ) : Bool :=
  let compZero := decimalCompare q 0
  let compOne := decimalCompare q 1
  let secondElement : Bool := compOne == 0 || compOne == -1
  compZero == 0 || compZero == (if secondElement then (1 : ℚ) else 0)

/-- The comma-split-and-strip applied to `news:genres`,
`news:keywords` and `news:stock_tickers`. -/
def commaSplitStrip (s : Option Str) : List Str :=
  if pyTruthy s then (splitOnChar (s.getD []) ',').map pyStrip else []

/-- The date handling shared by `last_modified` / `news_publish_date`
(and the feed parsers' `publication_date`): an absent or falsy value
stays as-is (no date); otherwise `parse_iso8601_date`, whose failure
on a non-empty string is a raised `ParserError`. -/
def parseDateField (v : Option Str) : Except PyError (Option DateTime) :=
  if pyTruthy v then
    match dateutilParse (v.getD []) with
    | some d => .ok (some d)
    | none => .error (.dateParseError (v.getD []))
  else .ok none

/-- The `change_frequency` handling of `Page.page`: lower-case, use the
enum value when known, else warn and default to `always`. -/
def parseChangeFreqField (v : Option Str) : Option SitemapPageChangeFrequency :=
  if pyTruthy v then
    match SitemapPageChangeFrequency.ofValue? (pyLower (v.getD [])) with
    | some x => some x
    | none => some .always
  else none

/-- The `priority` handling of `Page.page`: absent or falsy means the
default; otherwise `Decimal(...)` (whose failure raises
`InvalidOperation`) followed by the bounds membership test, replacing
out-of-range values with the default. -/
def parsePriorityField (v : Option Str) : Except PyError ℚ :=
  if pyTruthy v then
    match decimalParse (v.getD []) with
    | some q => .ok (if priorityInRangeCheck q then q else sitemapPageDefaultPriority)
    | none => .error (.decimalInvalidOperation (v.getD []))
  else .ok sitemapPageDefaultPriority

/-- The news-story construction of `Page.page`: built exactly when the
(unescaped, stripped) `news_title` is truthy and the parsed
`news_publish_date` is a datetime. -/
def newsStoryOf (p : RawPage) (newsPublishDate : Option DateTime) :
    Option SitemapNewsStory :=
  let newsTitle := htmlUnescapeStrip p.newsTitle
  if pyTruthy newsTitle && newsPublishDate.isSome then
    some { title := newsTitle.getD [],
           publishDate := newsPublishDate,
           publicationName := htmlUnescapeStrip p.newsPublicationName,
           publicationLanguage := htmlUnescapeStrip p.newsPublicationLanguage,
           access := htmlUnescapeStrip p.newsAccess,
           genres := commaSplitStrip (htmlUnescapeStrip p.newsGenres),
           keywords := commaSplitStrip (htmlUnescapeStrip p.newsKeywords),
           stockTickers := commaSplitStrip (htmlUnescapeStrip p.newsStockTickers) }
  else none

/-- `PagesXMLSitemapParser.Page.page`: build the finished
`SitemapPage`, or `none` when the URL is unset (the page is dropped).
Date parsing (`parse_iso8601_date`) and `Decimal(...)` can raise; the
raise propagates out of the parser's `sitemap()` finalizer.  A field
whose element was present but whose text stripped to the empty string
is stored by the source as the (falsy) empty string where the model
stores `none`; no behaviour verified below observes the difference
(both are "no value" to every consumer in the source). -/
def rawPagePage (p : RawPage) : Except PyError (Option SitemapPage) := do
  let url := htmlUnescapeStrip p.url
  if ¬ pyTruthy url then return none
  let lastModified ← parseDateField (htmlUnescapeStrip p.lastModified)
  let changeFrequency := parseChangeFreqField (htmlUnescapeStrip p.changeFrequency)
  let priority ← parsePriorityField (htmlUnescapeStrip p.priority)
  let newsPublishDate ← parseDateField (htmlUnescapeStrip p.newsPublishDate)
  return some { url := url.getD [], priority := priority, lastModified := lastModified,
                changeFrequency := changeFrequency,
                newsStory := newsStoryOf p newsPublishDate }

/-- `PagesXMLSitemapParser` state. -/
structure PagesXmlState where
  base : BaseXmlState := {}
  currentPage : Option RawPage := none
  pages : List RawPage := []
  deriving Repr, DecidableEq

/-- `PagesXMLSitemapParser.xml_element_start`. -/
def pagesXmlStart (st : PagesXmlState) (name : Str) : Except PyError PagesXmlState :=
  let st := { st with base := baseStart st.base }
  if name == str "sitemap:url" then
    if st.currentPage.isSome then
      .error (.xmlParsingError (str "Page is expected to be unset by <url>."))
    else .ok { st with currentPage := some {} }
  else .ok st

/-- `PagesXMLSitemapParser.__require_last_char_data_to_be_set`. -/
def requireCharData (b : BaseXmlState) (name : Str) : Except PyError Unit :=
  if b.lastCharData.isEmpty then
    .error (.xmlParsingError
      (str "Character data is expected to be set at the end of <" ++ name ++ str ">."))
  else .ok ()

/-- `PagesXMLSitemapParser.xml_element_end`.  Note the commit step: the
source guards the append with `if self._current_page not in
self._pages`, but the `Page` class defines `__hash__` without
`__eq__`, so the membership test falls back to object identity and the
freshly created page is never found in the list — the page is always
appended (this is what claim C5 is about). -/
def pagesXmlEnd (st : PagesXmlState) (name : Str) : Except PyError PagesXmlState := do
  if st.currentPage.isNone && name ≠ str "sitemap:urlset" then
    throw (.xmlParsingError
      (str "Page is expected to be set at the end of <" ++ name ++ str ">."))
  let st ←
    if name == str "sitemap:url" then
      match st.currentPage with
      | some p => pure { st with pages := st.pages ++ [p], currentPage := none }
      | none => pure { st with currentPage := none }
    else
      match st.currentPage with
      | none => pure st
      | some p =>
        if name == str "sitemap:loc" then do
          let _ ← requireCharData st.base name
          pure { st with currentPage := some { p with url := some st.base.lastCharData } }
        else if name == str "sitemap:lastmod" then
          pure { st with currentPage := some { p with lastModified := some st.base.lastCharData } }
        else if name == str "sitemap:changefreq" then
          pure { st with currentPage := some { p with changeFrequency := some st.base.lastCharData } }
        else if name == str "sitemap:priority" then
          pure { st with currentPage := some { p with priority := some st.base.lastCharData } }
        else if name == str "news:name" then
          pure { st with currentPage := some { p with newsPublicationName := some st.base.lastCharData } }
        else if name == str "news:language" then
          pure { st with currentPage := some { p with newsPublicationLanguage := some st.base.lastCharData } }
        else if name == str "news:publication_date" then
          pure { st with currentPage := some { p with newsPublishDate := some st.base.lastCharData } }
        else if name == str "news:title" then do
          let _ ← requireCharData st.base name
          pure { st with currentPage := some { p with newsTitle := some st.base.lastCharData } }
        else if name == str "news:access" then
          pure { st with currentPage := some { p with newsAccess := some st.base.lastCharData } }
        else if name == str "news:keywords" then
          pure { st with currentPage := some { p with newsKeywords := some st.base.lastCharData } }
        else if name == str "news:stock_tickers" then
          pure { st with currentPage := some { p with newsStockTickers := some st.base.lastCharData } }
        else pure st
  pure { st with base := baseEnd st.base }

/-- `PagesXMLSitemapParser.sitemap`: run `page()` over the collected
raw pages, keeping the completed ones. -/
def pagesXmlFinalize (url : Str) (st : PagesXmlState) : Except PyError Sitemap := do
  let pages ← st.pages.foldlM
    (fun acc row => do
      match ← rawPagePage row with
      | some page => pure (acc ++ [page])
      | none => pure acc) []
  return .pages .xml url pages

/-- `IndexXMLSitemapParser` state. -/
structure IndexXmlState where
  base : BaseXmlState := {}
  recursionLevel : Nat
  subSitemapUrls : List Str := []
  deriving Repr, DecidableEq

/-- `IndexXMLSitemapParser.xml_element_end`: on `</sitemap:loc>`,
HTML-unescape and strip the character data; skip it unless it is an
HTTP(S) URL; append it unless already collected. -/
def indexXmlEnd (st : IndexXmlState) (name : Str) : IndexXmlState :=
  let st :=
    if name == str "sitemap:loc" then
      match htmlUnescapeStrip (some st.base.lastCharData) with
      | some u =>
        if ¬ isHttpUrl u then st
        else if u ∈ st.subSitemapUrls then st
        else { st with subSitemapUrls := st.subSitemapUrls ++ [u] }
      | none => st
    else st
  { st with base := baseEnd st.base }

/-- The error message `str(ex)` used when an index sub-fetch fails. -/
def PyError.message : PyError → Str
  | .recursionExceeded url => str "Recursion level exceeded 10 for URL " ++ url ++ str "."
  | .notHttpUrl url => str "URL " ++ url ++ str " is not a HTTP(s) URL."
  | .notRobotsTxtUrl url => str "URL does not look like robots.txt URL: " ++ url
  | .xmlParsingError m => m
  | .dateParseError s => str "Unknown string format: " ++ s
  | .decimalInvalidOperation s => str "Invalid decimal literal: " ++ s
  | .dateStringUnset => str "Date string is unset."
  | .fuelExhausted => str "recursion fuel exhausted"

/-- The `try/except` around one sub-sitemap fetch in
`IndexXMLSitemapParser.sitemap`: a raised exception is wrapped as an
`InvalidSitemap`. -/
def wrapSubSitemap (u : Str) (r : Except PyError Sitemap) : Sitemap :=
  match r with
  | .ok s => s
  | .error e =>
    .invalid u (str "Unable to add sub-sitemap from URL " ++ u ++ str ": " ++ e.message)

/-- `IndexXMLSitemapParser.sitemap`: fetch every collected sub-sitemap
URL at `recursion_level + 1`; any exception (bad URL, recursion limit,
anything raised while fetching or parsing) is caught and wrapped as an
`InvalidSitemap`, and the remaining siblings are still processed.
`fetchRec` is the recursive fetch (one fuel step smaller). -/
def indexXmlFinalize (url : Str) (st : IndexXmlState)
    (fetchRec : Str → Nat → Except PyError Sitemap) : Sitemap :=
  .index .xmlIndex url (st.subSitemapUrls.map (fun u =>
    wrapSubSitemap u (fetchRec u (st.recursionLevel + 1))))

/-- `PagesRSSSitemapParser.Page` / `PagesAtomSitemapParser.Page`: the
raw per-`<item>` (per-`<entry>`) fields, identical in both classes. -/
structure FeedRawPage where
  link : Option Str := none
  title : Option Str := none
  description : Option Str := none
  publicationDate : Option Str := none
  deriving Repr, DecidableEq

/-- `PagesRSSSitemapParser.Page.page` and (textually identical)
`PagesAtomSitemapParser.Page.page`: requires a link and at least one
of title/description; the news story's title is `title or
description`; the publication date is parsed when present (parse
failures raise) and otherwise passed to the story as `None` — this is
the behaviour claim C4 is about.  (As in `rawPagePage`, a value that
stripped to the empty string is collapsed to `none`.) -/
def feedPagePy (p : FeedRawPage) : Except PyError (Option SitemapPage) := do
  let link := htmlUnescapeStrip p.link
  if ¬ pyTruthy link then return none
  let title := htmlUnescapeStrip p.title
  let description := htmlUnescapeStrip p.description
  if ¬ (pyTruthy title || pyTruthy description) then return none
  let publishDate ← parseDateField (htmlUnescapeStrip p.publicationDate)
  return some
    { url := link.getD [],
      newsStory := some
        { title := if pyTruthy title then title.getD [] else description.getD [],
          publishDate := publishDate } }

/-- `PagesRSSSitemapParser` state. -/
structure RssState where
  base : BaseXmlState := {}
  currentPage : Option FeedRawPage := none
  pages : List FeedRawPage := []
  deriving Repr, DecidableEq

/-- `PagesRSSSitemapParser.xml_element_start`. -/
def rssStart (st : RssState) (name : Str) : Except PyError RssState :=
  let st := { st with base := baseStart st.base }
  if name == str "item" then
    if st.currentPage.isSome then
      .error (.xmlParsingError (str "Page is expected to be unset by <item>."))
    else .ok { st with currentPage := some {} }
  else .ok st

/-- `PagesRSSSitemapParser.xml_element_end`: only acts while inside an
`<item>`; commit on `</item>` (always appended: the `not in`
membership test compares by identity, as for the urlset parser);
`<link>`, `<title>` and `<description>` require non-empty character
data; `<pubDate>` may be empty. -/
def rssEnd (st : RssState) (name : Str) : Except PyError RssState := do
  let st ←
    match st.currentPage with
    | none => pure st
    | some p =>
      if name == str "item" then
        pure { st with pages := st.pages ++ [p], currentPage := none }
      else if name == str "link" then do
        let _ ← requireCharData st.base name
        pure { st with currentPage := some { p with link := some st.base.lastCharData } }
      else if name == str "title" then do
        let _ ← requireCharData st.base name
        pure { st with currentPage := some { p with title := some st.base.lastCharData } }
      else if name == str "description" then do
        let _ ← requireCharData st.base name
        pure { st with currentPage := some { p with description := some st.base.lastCharData } }
      else if name == str "pubDate" then
        pure { st with currentPage := some { p with publicationDate := some st.base.lastCharData } }
      else pure st
  pure { st with base := baseEnd st.base }

/-- `PagesRSSSitemapParser.sitemap`. -/
def rssFinalize (url : Str) (st : RssState) : Except PyError Sitemap := do
  let pages ← st.pages.foldlM
    (fun acc row => do
      match ← feedPagePy row with
      | some page => pure (acc ++ [page])
      | none => pure acc) []
  return .pages .rss url pages

/-- `PagesAtomSitemapParser` state. -/
structure AtomState where
  base : BaseXmlState := {}
  currentPage : Option FeedRawPage := none
  pages : List FeedRawPage := []
  lastLinkRelSelfHref : Option Str := none
  deriving Repr, DecidableEq

/-- `PagesAtomSitemapParser.xml_element_start`: `<entry>` opens a page;
`<link>` captures `href` when inside an entry and either the `rel`
attribute (defaulting to `"self"`) lower-cases to `"self"` or no link
has been captured yet.  `attrs.get("href")` may itself be absent. -/
def atomStart (st : AtomState) (name : Str) (attrs : List (Str × Str)) :
    Except PyError AtomState :=
  let st := { st with base := baseStart st.base }
  if name == str "entry" then
    if st.currentPage.isSome then
      .error (.xmlParsingError (str "Page is expected to be unset by <entry>."))
    else .ok { st with currentPage := some {} }
  else if name == str "link" then
    if st.currentPage.isSome &&
        (pyLower ((attrs.find? (fun kv => kv.1 == str "rel")).map Prod.snd |>.getD (str "self"))
            == str "self" ||
          st.lastLinkRelSelfHref.isNone) then
      .ok { st with lastLinkRelSelfHref :=
              (attrs.find? (fun kv => kv.1 == str "href")).map Prod.snd }
    else .ok st
  else .ok st

/-- `PagesAtomSitemapParser.xml_element_end`: on `</entry>`, commit the
page iff a (truthy) link was captured, clearing the captured link;
`<title>`, `<tagline>` and `<summary>` require non-empty character
data; `<issued>`/`<published>` set the publication date; `<updated>`
sets it only when still unset. -/
def atomEnd (st : AtomState) (name : Str) : Except PyError AtomState := do
  let st ←
    match st.currentPage with
    | none => pure st
    | some p =>
      if name == str "entry" then
        if pyTruthy st.lastLinkRelSelfHref then
          let p := { p with link := st.lastLinkRelSelfHref }
          pure { st with pages := st.pages ++ [p], currentPage := none,
                         lastLinkRelSelfHref := none }
        else
          pure { st with currentPage := none }
      else if name == str "title" then do
        let _ ← requireCharData st.base name
        pure { st with currentPage := some { p with title := some st.base.lastCharData } }
      else if name == str "tagline" || name == str "summary" then do
        let _ ← requireCharData st.base name
        pure { st with currentPage := some { p with description := some st.base.lastCharData } }
      else if name == str "issued" || name == str "published" then
        pure { st with currentPage := some { p with publicationDate := some st.base.lastCharData } }
      else if name == str "updated" then
        if ¬ pyTruthy p.publicationDate then
          pure { st with currentPage := some { p with publicationDate := some st.base.lastCharData } }
        else pure st
      else pure st
  pure { st with base := baseEnd st.base }

/-- `PagesAtomSitemapParser.sitemap`. -/
def atomFinalize (url : Str) (st : AtomState) : Except PyError Sitemap := do
  let pages ← st.pages.foldlM
    (fun acc row => do
      match ← feedPagePy row with
      | some page => pure (acc ++ [page])
      | none => pure acc) []
  return .pages .atom url pages

/-! ## The XML dispatcher (`XMLSitemapParser`) -/

/-- The concrete parser selected by the root element, with its state. -/
inductive ConcreteParser
  | pagesXml (st : PagesXmlState)
  | indexXml (st : IndexXmlState)
  | rss (st : RssState)
  | atom (st : AtomState)
  deriving Repr, DecidableEq

/-- Forward a start event to the concrete parser. -/
def concreteStart (cp : ConcreteParser) (name : Str) (attrs : List (Str × Str)) :
    Except PyError ConcreteParser :=
  match cp with
  | .pagesXml st => .pagesXml <$> pagesXmlStart st name
  | .indexXml st => .ok (.indexXml { st with base := baseStart st.base })
  | .rss st => .rss <$> rssStart st name
  | .atom st => .atom <$> atomStart st name attrs

/-- Forward an end event to the concrete parser. -/
def concreteEnd (cp : ConcreteParser) (name : Str) : Except PyError ConcreteParser :=
  match cp with
  | .pagesXml st => .pagesXml <$> pagesXmlEnd st name
  | .indexXml st => .ok (.indexXml (indexXmlEnd st name))
  | .rss st => .rss <$> rssEnd st name
  | .atom st => .atom <$> atomEnd st name

/-- Forward a character-data event to the concrete parser (all
concrete parsers inherit `AbstractXMLSitemapParser.xml_char_data`). -/
def concreteChar (cp : ConcreteParser) (data : Str) : ConcreteParser :=
  match cp with
  | .pagesXml st => .pagesXml { st with base := baseChar st.base data }
  | .indexXml st => .indexXml { st with base := baseChar st.base data }
  | .rss st => .rss { st with base := baseChar st.base data }
  | .atom st => .atom { st with base := baseChar st.base data }

/-- One expat event through `XMLSitemapParser`'s handlers: names are
namespace-normalized; the first start element selects the concrete
parser (`sitemap:urlset`, `sitemap:sitemapindex`, `rss`, `feed`;
anything else raises); later events are forwarded.  End or
character-data events before a concrete parser exists raise. -/
def dispatcherStep (recursionLevel : Nat) (cp : Option ConcreteParser)
    (ev : XmlEvent) : Except PyError (Option ConcreteParser) :=
  match ev with
  | .elementStart rawName attrs => do
    let name ← normalizeXmlName rawName
    match cp with
    | some p => some <$> concreteStart p name attrs
    | none =>
      if name == str "sitemap:urlset" then
        pure (some (.pagesXml {}))
      else if name == str "sitemap:sitemapindex" then
        pure (some (.indexXml { recursionLevel := recursionLevel }))
      else if name == str "rss" then
        pure (some (.rss {}))
      else if name == str "feed" then
        pure (some (.atom {}))
      else
        throw (.xmlParsingError (str "Unsupported root element '" ++ name ++ str "'."))
  | .elementEnd rawName => do
    let name ← normalizeXmlName rawName
    match cp with
    | none => throw (.xmlParsingError (str "Concrete sitemap parser should be set by now."))
    | some p => some <$> concreteEnd p name
  | .charData d =>
    match cp with
    | none => .error (.xmlParsingError (str "Concrete sitemap parser should be set by now."))
    | some p => .ok (some (concreteChar p d))

/-- Run the delivered events through the dispatcher.  An exception
raised by a handler propagates out of `Parse` and is caught by the
`try` in `XMLSitemapParser.sitemap`, keeping the state collected so
far (best-effort salvage of truncated/malformed sitemaps). -/
def runEvents (recursionLevel : Nat) :
    Option ConcreteParser → List XmlEvent → Option ConcreteParser
  | cp, [] => cp
  | cp, ev :: rest =>
    match dispatcherStep recursionLevel cp ev with
    | .ok cp' => runEvents recursionLevel cp' rest
    | .error _ => cp

/-- `XMLSitemapParser.sitemap`: parse the content (salvaging on expat
or handler errors), return `Invalid` when no concrete parser was ever
selected, else the concrete parser's finalizer — whose own exceptions
(e.g. date or decimal parse failures in `Page.page`) are *not* caught
here and propagate to the caller. -/
def xmlSitemapParserRun (url content : Str) (recursionLevel : Nat)
    (fetchRec : Str → Nat → Except PyError Sitemap) : Except PyError Sitemap :=
  let res := expatParse content
  match runEvents recursionLevel none res.events with
  | none => .ok (.invalid url (str "No parsers support sitemap from " ++ url))
  | some (.pagesXml st) => pagesXmlFinalize url st
  | some (.indexXml st) => .ok (indexXmlFinalize url st fetchRec)
  | some (.rss st) => rssFinalize url st
  | some (.atom st) => atomFinalize url st

/-! ## robots.txt and plain-text parsers -/

/-- The regex `^site-?map:\s*(.+?)$` (IGNORECASE) as an executable
matcher: a case-insensitive `site-map:` or `sitemap:` start, then
greedy `\s*`, then a non-empty capture running to the end of the line
(lines produced by `splitlines` contain no newline, so the lazy `.+?`
with the `$` anchor captures exactly the remainder). -/
def matchSitemapLine (line : Str) : Option Str :=
  let tail? : Option Str :=
    match line with
    | s :: i :: t :: e :: rest =>
      if pyToLower s == 's' && pyToLower i == 'i' && pyToLower t == 't' &&
          pyToLower e == 'e' then
        match rest with
        | '-' :: m :: a :: p :: ':' :: tail =>
          if pyToLower m == 'm' && pyToLower a == 'a' && pyToLower p == 'p' then
            some tail
          else none
        | m :: a :: p :: ':' :: tail =>
          if pyToLower m == 'm' && pyToLower a == 'a' && pyToLower p == 'p' then
            some tail
          else none
        | _ => none
      else none
    | _ => none
  match tail? with
  | none => none
  | some tail =>
    let captured := tail.dropWhile pyIsSpace
    if captured.isEmpty then none else some captured

/-- The URL-collection loop of `IndexRobotsTxtSitemapParser.sitemap`:
for each line, strip it, lower-case it, match the sitemap regex, keep
HTTP(S) matches, deduplicated in first-seen order (an `OrderedDict`
keyed by URL). -/
def robotsSitemapUrls (content : Str) : List Str :=
  (pySplitlines content).foldl
    (fun acc line =>
      match matchSitemapLine (pyLower (pyStrip line)) with
      | some u =>
        if isHttpUrl u then (if u ∈ acc then acc else acc ++ [u]) else acc
      | none => acc) []

/-- `IndexRobotsTxtSitemapParser`: the constructor raises unless the
URL ends in `/robots.txt`; `sitemap()` then fetches each collected URL
at the *same* recursion level — with no exception handling around the
child fetches, so a child fetch that raises propagates. -/
def robotsParserRun (url content : Str) (recursionLevel : Nat)
    (fetchRec : Str → Nat → Except PyError Sitemap) : Except PyError Sitemap := do
  if ¬ strEndsWith url (str "/robots.txt") then
    throw (.notRobotsTxtUrl url)
  let subs ← (robotsSitemapUrls content).mapM (fun u => fetchRec u recursionLevel)
  return .index .robotsTxt url subs

/-- `PlainTextSitemapParser.sitemap`: strip lines, skip empty ones,
keep HTTP(S) URLs deduplicated in first-seen order, and emit pages
with only a URL (and the default priority). -/
def plainTextParserRun (url content : Str) : Sitemap :=
  let urls := (pySplitlines content).foldl
    (fun acc line =>
      let l := pyStrip line
      if l.isEmpty then acc
      else if isHttpUrl l then (if l ∈ acc then acc else acc ++ [l])
      else acc) []
  .pages .text url (urls.map (fun u => { url := u }))

/-! ## `SitemapFetcher` and the tree entry point -/

/-- The content sniff of `SitemapFetcher.sitemap`:
`response_content[:20].strip().startswith("<")`. -/
def contentSniffsXml (content : Str) : Bool :=
  (str "<").isPrefixOf (pyStrip (content.take 20))

/-- `SitemapFetcher`: the constructor checks (recursion level at most
10, HTTP(S) URL) followed by `sitemap()` — fetch with retries, turn an
error response into `Invalid`, decompress/decode, and dispatch on the
sniffed content: XML parser, robots.txt parser (URL ends in
`/robots.txt`), or plain-text parser.  `fuel` only bounds the depth of
the model's recursion through sub-sitemap fetches; the Python
recursion is bounded by the recursion-level check (claim C2). -/
def fetchSitemap (client : WebClient) : Nat → Str → Nat → Except PyError Sitemap
  | fuel, url, recursionLevel =>
    if recursionLevel > 10 then .error (.recursionExceeded url)
    else if ¬ isHttpUrl url then .error (.notHttpUrl url)
    else match fuel with
    | 0 => .error .fuelExhausted
    | fuel + 1 =>
      match getUrlRetry client url with
      | .errorResp msg _ =>
        .ok (.invalid url (str "Unable to fetch sitemap from " ++ url ++ str ": " ++ msg))
      | .success resp =>
        let content := ungzippedResponseContent url resp
        if contentSniffsXml content then
          xmlSitemapParserRun url content recursionLevel
            (fun u l => fetchSitemap client fuel u l)
        else if strEndsWith url (str "/robots.txt") then
          robotsParserRun url content recursionLevel
            (fun u l => fetchSitemap client fuel u l)
        else
          .ok (plainTextParserRun url content)

/-- `_UNPUBLISHED_SITEMAP_PATHS`.  The source holds these in a Python
`set` literal and iterates it in unspecified hash order; the model
fixes the source listing order (no claim depends on the order). -/
def unpublishedSitemapPaths : List Str :=
  [str "sitemap.xml", str "sitemap.xml.gz", str "sitemap_index.xml",
   str "sitemap-index.xml", str "sitemap_index.xml.gz", str "sitemap-index.xml.gz",
   str ".sitemap.xml", str "sitemap", str "admin/config/search/xmlsitemap",
   str "sitemap/sitemap-index.xml", str "sitemap_news.xml", str "sitemap-news.xml",
   str "sitemap_news.xml.gz", str "sitemap-news.xml.gz"]

/-- The URLs referenced by the robots.txt child sitemaps, as collected
by `sitemap_tree_for_homepage` (`sitemap_urls_found_in_robots_txt`:
the `url` of each child when the robots.txt result is an
`IndexRobotsTxt`, else nothing). -/
def robotsRefsOf : Sitemap → List Str
  | .index .robotsTxt _ subs => subs.map Sitemap.url
  | _ => []

/-- The stripped homepage built by `sitemap_tree_for_homepage`:
`parse_result.scheme + "://" + parse_result.netloc + "/"`. -/
def strippedHomepage (u : UrlSplitResult) : Str :=
  u.scheme ++ str "://" ++ u.netloc ++ str "/"

/-- One iteration of the unpublished-path probe loop of
`sitemap_tree_for_homepage`: skip the path when robots.txt already
referenced its URL, else fetch it at level 0 (exceptions propagate)
and append the result unless it is `Invalid`. -/
def treeProbeStep (client : WebClient) (fuel : Nat) (homepage : Str) (refs : List Str)
    (acc : List Sitemap) (path : Str) : Except PyError (List Sitemap) := do
  let pathUrl := homepage ++ path
  if pathUrl ∈ refs then pure acc
  else do
    let s ← fetchSitemap client fuel pathUrl 0
    if s.isInvalid then pure acc else pure (acc ++ [s])

/-- `tree.sitemap_tree_for_homepage`: require an HTTP(S) homepage URL,
strip it to `scheme://netloc/` (via `urlparse`, which cannot fail
under the `is_http_url` guard), fetch `robots.txt` as a level-0
sitemap and append it unconditionally, then probe each unpublished
path not already referenced by the robots.txt sitemap's children,
appending the non-`Invalid` results; no exception handling surrounds
any of the fetches.  (`urljoin(homepage, "robots.txt")` on a
`scheme://netloc/` base is `scheme://netloc/robots.txt`, i.e. string
concatenation here.) -/
def sitemapTreeForHomepage (client : WebClient) (fuel : Nat) (homepageUrl : Str) :
    Except PyError Sitemap := do
  if ¬ isHttpUrl homepageUrl then
    throw (.notHttpUrl homepageUrl)
  match urlparseModel homepageUrl with
  | none =>
    -- Unreachable: `is_http_url` returned true, hence `urlparse` succeeded.
    throw (.notHttpUrl homepageUrl)
  | some u =>
    let homepage := strippedHomepage u
    let robotsTxtUrl := homepage ++ str "robots.txt"
    let robotsTxtSitemap ← fetchSitemap client fuel robotsTxtUrl 0
    let robotsRefs : List Str := robotsRefsOf robotsTxtSitemap
    let extras ← unpublishedSitemapPaths.foldlM
      (treeProbeStep client fuel homepage robotsRefs) []
    return .index .website homepage (robotsTxtSitemap :: extras)

/-! ## Auxiliary observation functions used by the theorems -/

/-- Decidable equality on `Except`, for evaluating the pipeline on
concrete inputs inside proofs. -/
instance {ε α : Type} [DecidableEq ε] [DecidableEq α] : DecidableEq (Except ε α) :=
  fun a b =>
    match a, b with
    | .ok x, .ok y => decidable_of_iff (x = y) (by simp)
    | .error x, .error y => decidable_of_iff (x = y) (by simp)
    | .ok _, .error _ => isFalse (by simp)
    | .error _, .ok _ => isFalse (by simp)

/-- Depths (distance from the root) of every `Invalid` node in a
sitemap tree. -/
def Sitemap.invalidDepths : Sitemap → List Nat
  | .invalid _ _ => [0]
  | .pages _ _ _ => []
  | .index _ _ subs =>
    ((subs.attach.map (fun s => s.1.invalidDepths)).flatten).map (· + 1)
decreasing_by
  have := List.sizeOf_lt_of_mem s.2
  simp only [Sitemap.index.sizeOf_spec]
  omega

/-- First-seen-order deduplication, the specification-side reading of
"in first-seen order with duplicates removed". -/
def dedupFirstSeen (l : List Str) : List Str :=
  l.foldl (fun acc u => if u ∈ acc then acc else acc ++ [u]) []

/-- Specification-side reading of the robots.txt URL collection (for
the refinement proof of C6): strip and lower-case each line, capture
via the sitemap-line regex, keep the HTTP(S) URLs, deduplicate in
first-seen order. -/
def robotsSpecUrls (content : Str) : List Str :=
  dedupFirstSeen
    (((pySplitlines content).filterMap
        (fun l => matchSitemapLine (pyLower (pyStrip l)))).filter
      (fun u => isHttpUrl u))

/-! ## Concrete inputs used by the claim theorems -/

/-- A urlset with two `<url>` entries sharing one `<loc>` (C5). -/
def c5DupDoc : Str :=
  str "<urlset xmlns=\"http://www.sitemaps.org/schemas/sitemap/0.9\"><url><loc>http://ex.com/a</loc></url><url><loc>http://ex.com/a</loc></url></urlset>"

/-- A client serving `c5DupDoc` at one URL. -/
def c5Client : WebClient :=
  ⟨fun u =>
    if u == str "http://ex.com/sm.xml" then .success { body := .plain c5DupDoc }
    else .errorResp (str "404 Not Found") false⟩

/-- robots.txt referencing a sitemap whose `<lastmod>` is not a date
(C1). -/
def c1RobotsBody : Str := str "Sitemap: http://failex.com/bad.xml\n"

def c1BadDoc : Str :=
  str "<urlset xmlns=\"http://www.sitemaps.org/schemas/sitemap/0.9\"><url><loc>http://failex.com/p1</loc><lastmod>never ever</lastmod></url></urlset>"

def c1Client : WebClient :=
  ⟨fun u =>
    if u == str "http://failex.com/robots.txt" then .success { body := .plain c1RobotsBody }
    else if u == str "http://failex.com/bad.xml" then .success { body := .plain c1BadDoc }
    else .errorResp (str "404 Not Found") false⟩

/-- The sitemapindex chain for C2: twelve index documents
`s0.xml … s11.xml`, each referencing the next. -/
def c2ChainUrl (k : Nat) : Str := str ("http://chain.test/s" ++ toString k ++ ".xml")

def c2ChainDoc (k : Nat) : Str :=
  str "<sitemapindex xmlns=\"http://www.sitemaps.org/schemas/sitemap/0.9\"><sitemap><loc>" ++
    c2ChainUrl (k + 1) ++ str "</loc></sitemap></sitemapindex>"

def c2ChainClient : WebClient :=
  ⟨fun u =>
    match (List.range 12).find? (fun k => c2ChainUrl k == u) with
    | some k => .success { body := .plain (c2ChainDoc k) }
    | none => .errorResp (str "404") false⟩

/-- The tree the chain produces: eleven nested `IndexXml` nodes
(levels 0 through 10) with an `Invalid` leaf for the twelfth URL. -/
def c2ExpectedTree : Nat → Sitemap
  | 0 => .invalid (c2ChainUrl 11)
      (str "Unable to add sub-sitemap from URL " ++ c2ChainUrl 11 ++ str ": " ++
        (PyError.recursionExceeded (c2ChainUrl 11)).message)
  | n + 1 => .index .xmlIndex (c2ChainUrl (10 - n)) [c2ExpectedTree n]

/-- An RSS document whose single `<item>` has a title and link but no
`<pubDate>` (C4). -/
def c4RssDoc : Str :=
  str "<rss version=\"2.0\"><channel><item><title>T</title><link>http://ex.com/a</link></item></channel></rss>"

/-- A client answering every request with a non-retryable error (used
as the C9 witness: the robots.txt child is `Invalid` yet still the
first child; every unpublished probe is `Invalid` and dropped). -/
def allErrorClient : WebClient :=
  ⟨fun _ => .errorResp (str "404 Not Found") false⟩

/-- Raw `<url>` entry with an out-of-range priority and its resulting
page (C3 witness). -/
def c3Raw73 : RawPage := { url := some (str "http://ex.com/a"), priority := some (str "7.3") }

def c3Page73 : SitemapPage := { url := str "http://ex.com/a" }

/-- Raw `<url>` entry with no priority and its resulting page (C3
witness). -/
def c3RawNone : RawPage := { url := some (str "http://ex.com/b") }

def c3PageNone : SitemapPage := { url := str "http://ex.com/b" }

/-- Raw `<url>` entry carrying a complete news story (C4 witness). -/
def c4RawNews : RawPage :=
  { url := some (str "http://ex.com/n"), newsTitle := some (str "T"),
    newsPublishDate := some (str "2024-01-01") }

def c4StoryNews : SitemapNewsStory :=
  { title := str "T", publishDate := some { year := 2024, month := 1, day := 1 } }

def c4PageNews : SitemapPage :=
  { url := str "http://ex.com/n", newsStory := some c4StoryNews }

/-- Raw RSS `<item>` with a title and link but no publication date
(C4). -/
def c4FeedNoDate : FeedRawPage :=
  { link := some (str "http://ex.com/a"), title := some (str "T") }

def c4StoryFeed : SitemapNewsStory := { title := str "T", publishDate := none }

def c4PageFeed : SitemapPage :=
  { url := str "http://ex.com/a", newsStory := some c4StoryFeed }

/-! # Theorems -/

/-! ## Equation lemmas for the nested-recursive tree walks -/

theorem allPages_invalid (u r : Str) : (Sitemap.invalid u r).allPages = [] := by
  simp [Sitemap.allPages]

theorem allPages_pages (v : PagesVariant) (u : Str) (ps : List SitemapPage) :
    (Sitemap.pages v u ps).allPages = ps := by
  simp [Sitemap.allPages]

theorem allPages_index (v : IndexVariant) (u : Str) (subs : List Sitemap) :
    (Sitemap.index v u subs).allPages = (subs.map Sitemap.allPages).flatten := by
  rw [Sitemap.allPages]
  rw [List.attach_map_val subs Sitemap.allPages]

theorem invalidDepths_invalid (u r : Str) : (Sitemap.invalid u r).invalidDepths = [0] := by
  simp [Sitemap.invalidDepths]

theorem invalidDepths_index (v : IndexVariant) (u : Str) (subs : List Sitemap) :
    (Sitemap.index v u subs).invalidDepths =
      ((subs.map Sitemap.invalidDepths).flatten).map (· + 1) := by
  rw [Sitemap.invalidDepths]
  rw [List.attach_map_val subs Sitemap.invalidDepths]

/-- The invalid leaf of the C2 chain tree sits at depth `n` of
`c2ExpectedTree n`. -/
theorem c2ExpectedTree_invalidDepths (n : Nat) :
    (c2ExpectedTree n).invalidDepths = [n] := by
  induction n with
  | zero => rw [c2ExpectedTree]; exact invalidDepths_invalid _ _
  | succ n ih =>
    rw [c2ExpectedTree, invalidDepths_index]
    simp [ih]

/-- C7: `all_pages()` equals the reference walk of the tree: an
`Invalid` sitemap yields nothing; a leaf pages sitemap constructed
with page list `P` yields exactly `P` in order (the out-of-line
temp-file storage round-trips, modelled as in-line storage, so the
`pages` property returns `P`); an index sitemap yields the
depth-first, in-order concatenation of `all_pages()` of its
sub-sitemaps. -/
theorem c7_all_pages_is_reference_walk :
    (∀ u r, (Sitemap.invalid u r).allPages = []) ∧
    (∀ v u P, (Sitemap.pages v u P).allPages = P) ∧
    (∀ v u subs, (Sitemap.index v u subs).allPages = (subs.map Sitemap.allPages).flatten) :=
  ⟨allPages_invalid, allPages_pages, allPages_index⟩

/-- C5 (failing input): the urlset parser's commit step is guarded by
`if self._current_page not in self._pages`, but `Page` defines
`__hash__` without `__eq__`, so the membership test compares by object
identity and never succeeds — a urlset with two `<url>` entries
sharing the same `<loc>` yields the page twice, not once.  (The other
half of the claim holds: distinct `<loc>` values come out once each,
in source order, as the witness documents of other claims show.) -/
theorem c5_duplicate_loc_kept_twice :
    fetchSitemap c5Client 1 (str "http://ex.com/sm.xml") 0 =
      .ok (.pages .xml (str "http://ex.com/sm.xml")
        [{ url := str "http://ex.com/a" }, { url := str "http://ex.com/a" }]) := by
  rfl

/-- C1 (failing input): a sitemap referenced from robots.txt whose
`<lastmod>` text is not a date makes `sitemap_tree_for_homepage`
raise the date-parse error (`dateutil`'s `ParserError`) to the
caller: `Page.page()` runs inside the parser's `sitemap()` finalizer,
outside the `try` that guards `expat.Parse`, and neither the
robots.txt parser nor the tree entry point wraps the fetch in a
`try` — contradicting the claim that only input-validation and
homepage-stripping errors can escape the public API. -/
theorem c1_malformed_lastmod_escapes_public_api :
    sitemapTreeForHomepage c1Client 2 (str "http://failex.com/") =
      .error (.dateParseError (str "never ever")) := by
  rfl

theorem c2ChainStep0 : fetchSitemap c2ChainClient 13 (c2ChainUrl 0) 0 =
    .ok (.index .xmlIndex (c2ChainUrl 0)
      [wrapSubSitemap (c2ChainUrl 1) (fetchSitemap c2ChainClient 12 (c2ChainUrl 1) 1)]) := by
  rfl

theorem c2ChainStep1 : fetchSitemap c2ChainClient 12 (c2ChainUrl 1) 1 =
    .ok (.index .xmlIndex (c2ChainUrl 1)
      [wrapSubSitemap (c2ChainUrl 2) (fetchSitemap c2ChainClient 11 (c2ChainUrl 2) 2)]) := by
  rfl

theorem c2ChainStep2 : fetchSitemap c2ChainClient 11 (c2ChainUrl 2) 2 =
    .ok (.index .xmlIndex (c2ChainUrl 2)
      [wrapSubSitemap (c2ChainUrl 3) (fetchSitemap c2ChainClient 10 (c2ChainUrl 3) 3)]) := by
  rfl

theorem c2ChainStep3 : fetchSitemap c2ChainClient 10 (c2ChainUrl 3) 3 =
    .ok (.index .xmlIndex (c2ChainUrl 3)
      [wrapSubSitemap (c2ChainUrl 4) (fetchSitemap c2ChainClient 9 (c2ChainUrl 4) 4)]) := by
  rfl

theorem c2ChainStep4 : fetchSitemap c2ChainClient 9 (c2ChainUrl 4) 4 =
    .ok (.index .xmlIndex (c2ChainUrl 4)
      [wrapSubSitemap (c2ChainUrl 5) (fetchSitemap c2ChainClient 8 (c2ChainUrl 5) 5)]) := by
  rfl

theorem c2ChainStep5 : fetchSitemap c2ChainClient 8 (c2ChainUrl 5) 5 =
    .ok (.index .xmlIndex (c2ChainUrl 5)
      [wrapSubSitemap (c2ChainUrl 6) (fetchSitemap c2ChainClient 7 (c2ChainUrl 6) 6)]) := by
  rfl

theorem c2ChainStep6 : fetchSitemap c2ChainClient 7 (c2ChainUrl 6) 6 =
    .ok (.index .xmlIndex (c2ChainUrl 6)
      [wrapSubSitemap (c2ChainUrl 7) (fetchSitemap c2ChainClient 6 (c2ChainUrl 7) 7)]) := by
  rfl

theorem c2ChainStep7 : fetchSitemap c2ChainClient 6 (c2ChainUrl 7) 7 =
    .ok (.index .xmlIndex (c2ChainUrl 7)
      [wrapSubSitemap (c2ChainUrl 8) (fetchSitemap c2ChainClient 5 (c2ChainUrl 8) 8)]) := by
  rfl

theorem c2ChainStep8 : fetchSitemap c2ChainClient 5 (c2ChainUrl 8) 8 =
    .ok (.index .xmlIndex (c2ChainUrl 8)
      [wrapSubSitemap (c2ChainUrl 9) (fetchSitemap c2ChainClient 4 (c2ChainUrl 9) 9)]) := by
  rfl

theorem c2ChainStep9 : fetchSitemap c2ChainClient 4 (c2ChainUrl 9) 9 =
    .ok (.index .xmlIndex (c2ChainUrl 9)
      [wrapSubSitemap (c2ChainUrl 10) (fetchSitemap c2ChainClient 3 (c2ChainUrl 10) 10)]) := by
  rfl

theorem c2ChainStep10 : fetchSitemap c2ChainClient 3 (c2ChainUrl 10) 10 =
    .ok (.index .xmlIndex (c2ChainUrl 10)
      [wrapSubSitemap (c2ChainUrl 11) (fetchSitemap c2ChainClient 2 (c2ChainUrl 11) 11)]) := by
  rfl

/-- C2: recursion depth never exceeds 10 — a fetch at recursion level
greater than 10 fails with the `SitemapExceptionError` raised by the
`SitemapFetcher` constructor, for every client, fuel and URL; an XML
sitemapindex fetches each collected sub-sitemap URL at
`recursion_level + 1`, wrapping any raised failure as an `Invalid`
sub-sitemap while every sibling is still processed (the result list
has one entry per collected URL); consequently the chain of twelve
sitemapindex documents served by `c2ChainClient` produces eleven
nested `IndexXml` nodes and an `Invalid` leaf at depth 11, a
non-empty partial tree with no unbounded descent. -/
theorem c2_recursion_depth_bounded :
    (∀ (client : WebClient) (fuel : Nat) (url : Str) (level : Nat), 10 < level →
      fetchSitemap client fuel url level = .error (.recursionExceeded url)) ∧
    (∀ (url : Str) (st : IndexXmlState) (fetchRec : Str → Nat → Except PyError Sitemap),
      ∃ subs, indexXmlFinalize url st fetchRec = .index .xmlIndex url subs ∧
        subs.length = st.subSitemapUrls.length ∧
        (∀ u ∈ st.subSitemapUrls, ∀ s, fetchRec u (st.recursionLevel + 1) = .ok s →
          s ∈ subs) ∧
        (∀ u ∈ st.subSitemapUrls, ∀ e, fetchRec u (st.recursionLevel + 1) = .error e →
          Sitemap.invalid u
            (str "Unable to add sub-sitemap from URL " ++ u ++ str ": " ++ e.message) ∈ subs)) ∧
    fetchSitemap c2ChainClient 13 (c2ChainUrl 0) 0 = .ok (c2ExpectedTree 11) ∧
    (c2ExpectedTree 11).invalidDepths = [11] := by
  refine ⟨?_, ?_, ?_, c2ExpectedTree_invalidDepths 11⟩
  · intro client fuel url level h
    rw [fetchSitemap.eq_def]
    simp [h]
  · intro url st fetchRec
    refine ⟨_, rfl, List.length_map _ _, ?_, ?_⟩
    · intro u hu s hfetch
      exact List.mem_map.mpr ⟨u, hu, by rw [hfetch]; rfl⟩
    · intro u hu e hfetch
      exact List.mem_map.mpr ⟨u, hu, by rw [hfetch]; rfl⟩
  · rw [c2ChainStep0, c2ChainStep1, c2ChainStep2, c2ChainStep3, c2ChainStep4,
      c2ChainStep5, c2ChainStep6, c2ChainStep7, c2ChainStep8, c2ChainStep9,
      c2ChainStep10]
    rfl

/-- Witness for C2: the recursion-level guard fires at the concrete
level 11, and the chain's level-11 fetch fails exactly that way. -/
theorem c2_recursion_depth_bounded_witness :
    10 < 11 ∧
      fetchSitemap c2ChainClient 20 (c2ChainUrl 11) 11 =
        .error (.recursionExceeded (c2ChainUrl 11)) :=
  ⟨by decide,
    c2_recursion_depth_bounded.1 c2ChainClient 20 (c2ChainUrl 11) 11 (by decide)⟩

/-- The misformed membership test of `Page.page` coincides with the
intended `0 ≤ priority ≤ 1` bound (because `Decimal(1) == True` and
`Decimal(0) == False` hold numerically in Python). -/
theorem priorityInRangeCheck_eq (q : ℚ) :
    priorityInRangeCheck q = (decide (0 ≤ q) && decide (q ≤ 1)) := by
  unfold priorityInRangeCheck decimalCompare
  rcases lt_trichotomy q 0 with h0 | h0 | h0
  · have h1 : q < 1 := lt_trans h0 one_pos
    have h2 : ¬ (0:ℚ) ≤ q := not_le.mpr h0
    simp [h0, h1, h2]
    norm_num
  · subst h0
    norm_num
  · have h2 : ¬ q < 0 := not_lt.mpr (le_of_lt h0)
    have h3 : ¬ q == 0 := by simp; exact ne_of_gt h0
    rcases lt_trichotomy q 1 with h1 | h1 | h1
    · simp [h2, h3, h1]
      constructor
      · exact le_of_lt h0
      · exact le_of_lt h1
    · subst h1
      norm_num [h2]
    · have h4 : ¬ q < 1 := not_lt.mpr (le_of_lt h1)
      have h5 : ¬ q == 1 := by simp; exact ne_of_gt h1
      have h6 : ¬ q ≤ 1 := not_le.mpr h1
      simp [h2, h3, h4, h5, h6]
      norm_num

/-- Dissection of a successful `Page.page()`: the URL was truthy, each
fallible field parse succeeded, and the page is assembled from the
parse results. -/
theorem rawPagePage_ok_some (p : RawPage) (page : SitemapPage)
    (h : rawPagePage p = .ok (some page)) :
    pyTruthy (htmlUnescapeStrip p.url) = true ∧
    ∃ lastModified priority newsPublishDate,
      parseDateField (htmlUnescapeStrip p.lastModified) = .ok lastModified ∧
      parsePriorityField (htmlUnescapeStrip p.priority) = .ok priority ∧
      parseDateField (htmlUnescapeStrip p.newsPublishDate) = .ok newsPublishDate ∧
      page = { url := (htmlUnescapeStrip p.url).getD [], priority := priority,
               lastModified := lastModified,
               changeFrequency := parseChangeFreqField (htmlUnescapeStrip p.changeFrequency),
               newsStory := newsStoryOf p newsPublishDate } := by
  unfold rawPagePage at h
  by_cases hurl : pyTruthy (htmlUnescapeStrip p.url) = true
  · simp only [hurl, Bool.not_eq_true] at h ⊢
    refine ⟨trivial, ?_⟩
    cases hlm : parseDateField (htmlUnescapeStrip p.lastModified) with
    | error e => simp [hlm, Bind.bind, Except.bind, pure, Except.pure] at h
    | ok lm =>
      cases hpr : parsePriorityField (htmlUnescapeStrip p.priority) with
      | error e => simp [hlm, hpr, Bind.bind, Except.bind, pure, Except.pure] at h
      | ok pr =>
        cases hnd : parseDateField (htmlUnescapeStrip p.newsPublishDate) with
        | error e => simp [hlm, hpr, hnd, Bind.bind, Except.bind, pure, Except.pure] at h
        | ok nd =>
          simp [hlm, hpr, hnd, Bind.bind, Except.bind, pure, Except.pure,
            Functor.map, Except.map] at h
          exact ⟨lm, pr, nd, rfl, rfl, rfl, h.symm⟩
  · simp only [Bool.not_eq_true] at hurl
    simp [hurl, pure, Except.pure] at h

/-- C3: for every `<url>` entry whose `<priority>` text holds a
decimal value `q`, the emitted page's priority lies in `[0, 1]`:
a value inside the bounds (endpoints included) is kept exactly, an
out-of-range value (such as 7.3 or -0.5) is replaced with the default
0.5, and an absent or empty `<priority>` also yields 0.5. -/
theorem c3_priority_clamped_to_unit_range :
    (∀ (p : RawPage) (page : SitemapPage) (s : Str) (q : ℚ),
      htmlUnescapeStrip p.priority = some s → s ≠ [] →
      decimalParse s = some q →
      rawPagePage p = .ok (some page) →
      (0 ≤ page.priority ∧ page.priority ≤ 1) ∧
      (0 ≤ q ∧ q ≤ 1 → page.priority = q) ∧
      (¬ (0 ≤ q ∧ q ≤ 1) → page.priority = sitemapPageDefaultPriority)) ∧
    (∀ (p : RawPage) (page : SitemapPage),
      pyTruthy (htmlUnescapeStrip p.priority) = false →
      rawPagePage p = .ok (some page) →
      page.priority = sitemapPageDefaultPriority) := by
  constructor
  · intro p page s q hs hne hq hok
    obtain ⟨-, lm, pr, nd, -, hpr, -, hpage⟩ := rawPagePage_ok_some p page hok
    rw [hs] at hpr
    have htr : pyTruthy (some s) = true := by
      simp [pyTruthy, List.isEmpty_iff, hne]
    unfold parsePriorityField at hpr
    rw [htr] at hpr
    simp only [Option.getD_some, if_true, hq, priorityInRangeCheck_eq] at hpr
    subst hpage
    by_cases hr : 0 ≤ q ∧ q ≤ 1
    · have : pr = q := by
        simp [hr.1, hr.2] at hpr
        exact hpr.symm
      subst this
      exact ⟨⟨hr.1, hr.2⟩, fun _ => rfl, fun hc => absurd hr hc⟩
    · have hd : pr = sitemapPageDefaultPriority := by
        rcases not_and_or.mp hr with hc | hc
        · simp [hc] at hpr
          exact hpr.symm
        · simp [hc] at hpr
          exact hpr.symm
      subst hd
      refine ⟨⟨by norm_num [sitemapPageDefaultPriority],
        by norm_num [sitemapPageDefaultPriority]⟩,
        fun hc => absurd hc hr, fun _ => rfl⟩
  · intro p page hfalse hok
    obtain ⟨-, lm, pr, nd, -, hpr, -, hpage⟩ := rawPagePage_ok_some p page hok
    unfold parsePriorityField at hpr
    rw [hfalse] at hpr
    simp at hpr
    subst hpage
    exact hpr.symm

/-- Witness for C3: `<priority>7.3</priority>` is replaced by the
default 0.5, and an absent priority yields 0.5. -/
theorem c3_priority_clamped_witness :
    ((0 ≤ c3Page73.priority ∧ c3Page73.priority ≤ 1) ∧
      (0 ≤ (mkRat 73 10) ∧ (mkRat 73 10) ≤ 1 → c3Page73.priority = mkRat 73 10) ∧
      (¬ (0 ≤ (mkRat 73 10) ∧ (mkRat 73 10) ≤ 1) →
        c3Page73.priority = sitemapPageDefaultPriority)) ∧
    c3PageNone.priority = sitemapPageDefaultPriority :=
  ⟨c3_priority_clamped_to_unit_range.1 c3Raw73 c3Page73 (str "7.3") (mkRat 73 10)
      rfl (by decide) rfl rfl,
    c3_priority_clamped_to_unit_range.2 c3RawNone c3PageNone rfl rfl⟩

/-- A truthy optional string holds a non-empty string. -/
theorem pyTruthy_getD_ne_nil (v : Option Str) (h : pyTruthy v = true) :
    v.getD [] ≠ [] := by
  cases v with
  | none => simp [pyTruthy] at h
  | some s =>
    simp only [pyTruthy, Bool.not_eq_true'] at h
    simpa [List.isEmpty_iff] using h

/-- A successful date-field parse is defined exactly when the raw
value was truthy. -/
theorem parseDateField_ok_isSome (v : Option Str) (d : Option DateTime)
    (h : parseDateField v = .ok d) : d.isSome = pyTruthy v := by
  unfold parseDateField at h
  by_cases hv : pyTruthy v = true
  · rw [if_pos hv] at h
    cases hd : dateutilParse (v.getD []) with
    | none => rw [hd] at h; exact absurd h (by simp)
    | some dt =>
      rw [hd] at h
      have : d = some dt := by simpa using h.symm
      simp [this, hv]
  · have hv' : pyTruthy v = false := by simpa using hv
    rw [hv'] at h
    simp at h
    simp [← h, hv']

/-- Dissection of a successful RSS/Atom `Page.page()`. -/
theorem feedPagePy_ok_some (p : FeedRawPage) (page : SitemapPage)
    (h : feedPagePy p = .ok (some page)) :
    pyTruthy (htmlUnescapeStrip p.link) = true ∧
    (pyTruthy (htmlUnescapeStrip p.title) || pyTruthy (htmlUnescapeStrip p.description)) = true ∧
    ∃ publishDate,
      parseDateField (htmlUnescapeStrip p.publicationDate) = .ok publishDate ∧
      page = { url := (htmlUnescapeStrip p.link).getD [],
               newsStory := some
                 { title := if pyTruthy (htmlUnescapeStrip p.title) then
                     (htmlUnescapeStrip p.title).getD []
                   else (htmlUnescapeStrip p.description).getD [],
                   publishDate := publishDate } } := by
  unfold feedPagePy at h
  by_cases hl : pyTruthy (htmlUnescapeStrip p.link) = true
  · simp only [hl, Bool.not_eq_true] at h ⊢
    by_cases ht : (pyTruthy (htmlUnescapeStrip p.title) ||
        pyTruthy (htmlUnescapeStrip p.description)) = true
    · simp only [ht, Bool.not_eq_true] at h ⊢
      refine ⟨trivial, trivial, ?_⟩
      cases hd : parseDateField (htmlUnescapeStrip p.publicationDate) with
      | error e => simp [hd, Bind.bind, Except.bind, pure, Except.pure] at h
      | ok d =>
        simp [hd, Bind.bind, Except.bind, pure, Except.pure,
          Functor.map, Except.map] at h
        exact ⟨d, rfl, h.symm⟩
    · have ht' : (pyTruthy (htmlUnescapeStrip p.title) ||
          pyTruthy (htmlUnescapeStrip p.description)) = false := by simpa using ht
      simp [ht', Bind.bind, Except.bind, pure, Except.pure] at h
  · have hl' : pyTruthy (htmlUnescapeStrip p.link) = false := by simpa using hl
    simp [hl', pure, Except.pure] at h

/-- C4 (counterexample): an RSS `<item>` with a `<title>` and `<link>`
but no `<pubDate>` is committed with a news story whose
`publish_date` is `None` — the claim's "an RSS `<item>` … committed
without a publication date still satisfies this" is false on the
code (`Page.page` passes the unparsed `None` straight into
`SitemapNewsStory`). -/
theorem c4_rss_item_without_pubdate_has_undefined_publish_date :
    xmlSitemapParserRun (str "http://ex.com/feed") c4RssDoc 0
        (fun _ _ => .error .fuelExhausted) =
      .ok (.pages .rss (str "http://ex.com/feed") [c4PageFeed]) ∧
    c4PageFeed.newsStory = some c4StoryFeed ∧ c4StoryFeed.publishDate = none :=
  ⟨by rfl, rfl, rfl⟩

/-- C4 (amended): every news story carried by a parsed page has a
non-empty title; a story produced by the urlset parser also has a
defined `publish_date`, while a story produced by the RSS/Atom
parsers has a defined `publish_date` exactly when the item carried a
non-empty publication date (an item committed without one yields a
story whose `publish_date` is `None`). -/
theorem c4_news_story_title_defined_date_characterized :
    (∀ (p : RawPage) (page : SitemapPage) (story : SitemapNewsStory),
      rawPagePage p = .ok (some page) → page.newsStory = some story →
      story.title ≠ [] ∧ story.publishDate.isSome = true) ∧
    (∀ (p : FeedRawPage) (page : SitemapPage) (story : SitemapNewsStory),
      feedPagePy p = .ok (some page) → page.newsStory = some story →
      story.title ≠ [] ∧
        story.publishDate.isSome = pyTruthy (htmlUnescapeStrip p.publicationDate)) := by
  constructor
  · intro p page story hok hstory
    obtain ⟨-, lm, pr, nd, -, -, -, hpage⟩ := rawPagePage_ok_some p page hok
    subst hpage
    simp only [newsStoryOf] at hstory
    by_cases hc : (pyTruthy (htmlUnescapeStrip p.newsTitle) && nd.isSome) = true
    · rw [if_pos hc] at hstory
      have hstory' := Option.some.inj hstory
      subst hstory'
      simp only [Bool.and_eq_true] at hc
      exact ⟨pyTruthy_getD_ne_nil _ hc.1, hc.2⟩
    · rw [Bool.not_eq_true] at hc
      rw [hc] at hstory
      simp at hstory
  · intro p page story hok hstory
    obtain ⟨-, ht, d, hd, hpage⟩ := feedPagePy_ok_some p page hok
    subst hpage
    have hstory' := Option.some.inj hstory
    subst hstory'
    constructor
    · by_cases htt : pyTruthy (htmlUnescapeStrip p.title) = true
      · simpa [htt] using pyTruthy_getD_ne_nil _ htt
      · have htt' : pyTruthy (htmlUnescapeStrip p.title) = false := by simpa using htt
        have hdd : pyTruthy (htmlUnescapeStrip p.description) = true := by
          simpa [htt'] using ht
        simpa [htt'] using pyTruthy_getD_ne_nil _ hdd
    · exact parseDateField_ok_isSome _ _ hd

/-- Witness for the amended C4: a urlset entry with a title and date
yields a story with both defined; the feed item without a date yields
a story whose `publish_date` definedness matches its (absent)
publication date. -/
theorem c4_news_story_witness :
    (c4StoryNews.title ≠ [] ∧ c4StoryNews.publishDate.isSome = true) ∧
    (c4StoryFeed.title ≠ [] ∧
      c4StoryFeed.publishDate.isSome =
        pyTruthy (htmlUnescapeStrip c4FeedNoDate.publicationDate)) :=
  ⟨c4_news_story_title_defined_date_characterized.1 c4RawNews c4PageNews c4StoryNews
      rfl rfl,
    c4_news_story_title_defined_date_characterized.2 c4FeedNoDate c4PageFeed c4StoryFeed
      rfl rfl⟩

/-- The robots.txt collection loop equals the staged pipeline
(filterMap the regex captures, filter the HTTP(S) URLs, deduplicate
first-seen), for any accumulator. -/
theorem robotsFold_eq (lines : List Str) (acc : List Str) :
    lines.foldl (fun acc line =>
      match matchSitemapLine (pyLower (pyStrip line)) with
      | some u => if isHttpUrl u then (if u ∈ acc then acc else acc ++ [u]) else acc
      | none => acc) acc =
    ((lines.filterMap (fun l => matchSitemapLine (pyLower (pyStrip l)))).filter
      (fun u => isHttpUrl u)).foldl (fun acc u => if u ∈ acc then acc else acc ++ [u]) acc := by
  induction lines generalizing acc with
  | nil => rfl
  | cons l rest ih =>
    simp only [List.foldl_cons, List.filterMap_cons]
    cases hm : matchSitemapLine (pyLower (pyStrip l)) with
    | none => exact ih acc
    | some u =>
      by_cases hu : isHttpUrl u = true
      · simp only [hu, if_true, List.filter_cons, List.foldl_cons]
        exact ih _
      · have hu' : isHttpUrl u = false := by simpa using hu
        simp only [hu', List.filter_cons, Bool.false_eq_true, if_false]
        exact ih acc

/-- First-seen deduplication preserves and establishes `Nodup`. -/
theorem dedupFold_nodup (l : List Str) (acc : List Str) (h : acc.Nodup) :
    (l.foldl (fun acc u => if u ∈ acc then acc else acc ++ [u]) acc).Nodup := by
  induction l generalizing acc with
  | nil => exact h
  | cons u rest ih =>
    simp only [List.foldl_cons]
    by_cases hm : u ∈ acc
    · simp only [hm, if_true]
      exact ih acc h
    · simp only [hm, if_false]
      refine ih _ ?_
      simp [List.nodup_append, h, hm]

/-- One `</sitemap:loc>` step of the index parser only ever appends a
fresh URL, keeping the collected list duplicate-free and leaving the
previously collected ones in place (first-seen order). -/
theorem indexXmlEnd_urls (st : IndexXmlState) (name : Str) :
    ∃ t, (indexXmlEnd st name).subSitemapUrls = st.subSitemapUrls ++ t ∧
      (st.subSitemapUrls.Nodup → (indexXmlEnd st name).subSitemapUrls.Nodup) := by
  unfold indexXmlEnd
  by_cases hn : (name == str "sitemap:loc") = true
  · simp only [hn, if_true]
    cases hu : htmlUnescapeStrip (some st.base.lastCharData) with
    | none => exact ⟨[], by simp, fun h => by simpa using h⟩
    | some u =>
      by_cases hh : isHttpUrl u = true
      · by_cases hmem : u ∈ st.subSitemapUrls
        · refine ⟨[], by simp [hh, hmem], fun h => by simpa [hh, hmem] using h⟩
        · refine ⟨[u], by simp [hh, hmem], fun h => ?_⟩
          simp only [hh, Bool.not_true, Bool.false_eq_true, if_false, hmem]
          simp [List.nodup_append, h, hmem]
      · have hh' : isHttpUrl u = false := by simpa using hh
        exact ⟨[], by simp [hh'], fun h => by simpa [hh'] using h⟩
  · have hn' : (name == str "sitemap:loc") = false := by simpa using hn
    exact ⟨[], by simp [hn'], fun h => by simpa [hn'] using h⟩

/-- C6 (counterexample): the robots.txt parser lower-cases the whole
line before matching, so a `Sitemap:` line written with upper-case
characters makes the child fetch run on the lower-cased URL, not the
URL as written on the line. -/
theorem c6_robots_url_lowercased_counterexample :
    robotsSitemapUrls (str "Sitemap: http://EX.com/Map.xml\n") =
      [str "http://ex.com/map.xml"] ∧
    robotsParserRun (str "http://ex.com/robots.txt")
        (str "Sitemap: http://EX.com/Map.xml\n") 0
        (fun u _ => .ok (.invalid u [])) =
      .ok (.index .robotsTxt (str "http://ex.com/robots.txt")
        [.invalid (str "http://ex.com/map.xml") []]) ∧
    (str "http://ex.com/map.xml" : Str) ≠ str "http://EX.com/Map.xml" :=
  ⟨rfl, by rfl, by decide⟩

/-- C6 (amended): the robots.txt parser invokes child fetches on
exactly the URL texts captured by matching `^site-?map:\s*(.+?)$`
against each *stripped and lower-cased* line, in first-seen order with
duplicates removed and non-HTTP(S) URLs skipped; the collected list is
duplicate-free, and the XML sitemapindex parser's sub-sitemap URL list
is likewise duplicate-free and only ever extended at the end
(first-seen order preserved). -/
theorem c6_robots_and_index_url_collection :
    (∀ content, robotsSitemapUrls content = robotsSpecUrls content) ∧
    (∀ content, (robotsSitemapUrls content).Nodup) ∧
    (∀ (st : IndexXmlState) (name : Str),
      ∃ t, (indexXmlEnd st name).subSitemapUrls = st.subSitemapUrls ++ t) ∧
    (∀ (st : IndexXmlState) (name : Str),
      st.subSitemapUrls.Nodup → ((indexXmlEnd st name).subSitemapUrls).Nodup) := by
  have h1 : ∀ content, robotsSitemapUrls content = robotsSpecUrls content := by
    intro content
    unfold robotsSitemapUrls robotsSpecUrls dedupFirstSeen
    exact robotsFold_eq _ _
  refine ⟨h1, ?_, ?_, ?_⟩
  · intro content
    rw [h1]
    unfold robotsSpecUrls dedupFirstSeen
    exact dedupFold_nodup _ _ List.nodup_nil
  · intro st name
    obtain ⟨t, ht, -⟩ := indexXmlEnd_urls st name
    exact ⟨t, ht⟩
  · intro st name h
    obtain ⟨-, -, hn⟩ := indexXmlEnd_urls st name
    exact hn h

/-- Witness for the amended C6: the `Nodup`-preservation part applied
to the empty collection state. -/
theorem c6_robots_and_index_url_collection_witness :
    (List.Nodup ([] : List Str)) ∧
      ((indexXmlEnd { recursionLevel := 0 } (str "sitemap:loc")).subSitemapUrls).Nodup :=
  ⟨List.nodup_nil,
    c6_robots_and_index_url_collection.2.2.2 { recursionLevel := 0 } (str "sitemap:loc")
      List.nodup_nil⟩


theorem pyEqNewsStoryOpt_ok_true_iff (x y : Option SitemapNewsStory) :
    pyEqNewsStoryOpt x y = .ok true ↔ x = y := by
  cases x <;> cases y <;> simp [pyEqNewsStoryOpt]

theorem pyEqPage_ok_true_iff (a b : SitemapPage) : pyEqPage a b = .ok true ↔ a = b := by
  cases a with | mk u p l c n =>
  cases b with | mk u' p' l' c' n' =>
  simp only [pyEqPage, SitemapPage.mk.injEq]
  split_ifs with h1 h2 h3 h4 <;>
    simp_all [pyEqNewsStoryOpt_ok_true_iff]

theorem pyEqPageListGo_iff : ∀ (a b : List SitemapPage), a.length = b.length →
    (pyEqPageListGo a b = .ok true ↔ a = b)
  | [], [], _ => by simp [pyEqPageListGo]
  | a :: as, b :: bs, hlen => by
    have hel := pyEqPage_ok_true_iff a b
    have hrest := pyEqPageListGo_iff as bs (by simpa using hlen)
    constructor
    · intro h
      unfold pyEqPageListGo at h
      cases hab : pyEqPage a b with
      | error e => rw [hab] at h; exact absurd h (by simp [Bind.bind, Except.bind])
      | ok v =>
        rw [hab] at h
        cases v with
        | false => exact absurd h (by simp [Bind.bind, Except.bind])
        | true =>
          simp only [Bind.bind, Except.bind, if_true] at h
          rw [hel.mp hab, hrest.mp h]
    · intro h
      obtain ⟨ha, has⟩ := List.cons.injEq .. ▸ h
      unfold pyEqPageListGo
      rw [hel.mpr ha]
      simpa [Bind.bind, Except.bind] using hrest.mpr has

theorem pyEqPageList_ok_true_iff (a b : List SitemapPage) :
    pyEqPageList a b = .ok true ↔ a = b := by
  unfold pyEqPageList
  by_cases hlen : a.length = b.length
  · rw [if_neg (fun hc => hc hlen)]
    exact pyEqPageListGo_iff a b hlen
  · rw [if_pos hlen]
    constructor
    · intro h; exact absurd h (by simp)
    · intro h; exact absurd (congrArg List.length h) hlen

theorem eraseVariant_invalid (u r : Str) :
    (Sitemap.invalid u r).eraseVariant = .invalid u r := by
  simp [Sitemap.eraseVariant]

theorem eraseVariant_pages (v : PagesVariant) (u : Str) (p : List SitemapPage) :
    (Sitemap.pages v u p).eraseVariant = .pages .xml u p := by
  simp [Sitemap.eraseVariant]

theorem eraseVariant_index (v : IndexVariant) (u : Str) (s : List Sitemap) :
    (Sitemap.index v u s).eraseVariant = .index .xmlIndex u (s.map Sitemap.eraseVariant) := by
  rw [Sitemap.eraseVariant]
  rw [List.attach_map_val s Sitemap.eraseVariant]

mutual

theorem pyEqSitemap_ok_true_iff : ∀ a b : Sitemap,
    pyEqSitemap a b = .ok true ↔ a.eraseVariant = b.eraseVariant
  | .invalid u r, .invalid u' r' => by
    simp [pyEqSitemap, eraseVariant_invalid]
  | .invalid u r, .pages v' u' p' => by
    simp [pyEqSitemap, eraseVariant_invalid, eraseVariant_pages]
  | .invalid u r, .index v' u' s' => by
    simp [pyEqSitemap, eraseVariant_invalid, eraseVariant_index]
  | .pages v u p, .invalid u' r' => by
    simp [pyEqSitemap, eraseVariant_invalid, eraseVariant_pages]
  | .pages v u p, .index v' u' s' => by
    simp [pyEqSitemap, eraseVariant_pages, eraseVariant_index]
  | .index v u s, .invalid u' r' => by
    simp [pyEqSitemap, eraseVariant_invalid, eraseVariant_index]
  | .index v u s, .pages v' u' p' => by
    simp [pyEqSitemap, eraseVariant_pages, eraseVariant_index]
  | .pages v u p, .pages v' u' p' => by
    rw [eraseVariant_pages, eraseVariant_pages]
    simp only [pyEqSitemap]
    by_cases hu : u = u'
    · simp [hu, pyEqPageList_ok_true_iff p p', Sitemap.pages.injEq]
    · simp [hu]
  | .index v u s, .index v' u' s' => by
    rw [eraseVariant_index, eraseVariant_index]
    simp only [pyEqSitemap]
    by_cases hu : u = u'
    · simp only [hu, beq_self_eq_true, Bool.not_true, Bool.false_eq_true, if_false,
        Sitemap.index.injEq, true_and, not_true_eq_false, ite_false]
      unfold pyEqSitemapList
      by_cases hlen : s.length = s'.length
      · rw [if_neg (fun hc => hc hlen)]
        exact pyEqSitemapListGo_iff s s' hlen
      · rw [if_pos hlen]
        constructor
        · intro h; exact absurd h (by simp)
        · intro h
          have := congrArg List.length h
          simp at this
          exact absurd this hlen
    · simp [hu]

theorem pyEqSitemapListGo_iff : ∀ a b : List Sitemap, a.length = b.length →
    (pyEqSitemapListGo a b = .ok true ↔
      a.map Sitemap.eraseVariant = b.map Sitemap.eraseVariant)
  | [], [], _ => by simp [pyEqSitemapListGo]
  | a :: as, b :: bs, hlen => by
    have hel := pyEqSitemap_ok_true_iff a b
    have hrest := pyEqSitemapListGo_iff as bs (by simpa using hlen)
    constructor
    · intro h
      unfold pyEqSitemapListGo at h
      cases hab : pyEqSitemap a b with
      | error e => rw [hab] at h; exact absurd h (by simp [Bind.bind, Except.bind])
      | ok v =>
        rw [hab] at h
        cases v with
        | false => exact absurd h (by simp [Bind.bind, Except.bind])
        | true =>
          simp only [Bind.bind, Except.bind, if_true] at h
          simp only [List.map_cons, List.cons.injEq]
          exact ⟨hel.mp hab, hrest.mp h⟩
    · intro h
      simp only [List.map_cons, List.cons.injEq] at h
      unfold pyEqSitemapListGo
      rw [hel.mpr h.1]
      simpa [Bind.bind, Except.bind] using hrest.mpr h.2

end

/-- C10 (counterexample): `==` on sitemap objects is not the claimed
total structural equality: a `PagesText` and a `PagesXml` sitemap with
the same url and pages compare *equal* (the shared
`AbstractPagesSitemap.__eq__` only `isinstance`-checks the abstract
class), and comparing an `Invalid` sitemap with a pages sitemap
*raises* `NotImplementedError` instead of returning false. -/
theorem c10_cross_variant_eq_counterexample :
    pyEqSitemap (.pages .text (str "http://a.com/") [])
        (.pages .xml (str "http://a.com/") []) = .ok true ∧
    pyEqSitemap (.invalid (str "http://a.com/") (str "broken"))
        (.pages .xml (str "http://a.com/") []) = .error () := by
  constructor
  · simp [pyEqSitemap, pyEqPageList, pyEqPageListGo]
  · simp [pyEqSitemap]

/-- C10 (amended): `==` on sitemap values is defined per equality
family — comparing values of different families (`Invalid` vs pages
vs index) raises `NotImplementedError` rather than returning a
boolean; within a family the concrete variant tag is ignored, and a
comparison returns `True` exactly when the two values agree on
everything `__eq__` reads (`url` plus `reason` / `pages` /
`sub_sitemaps`, recursively, with variant tags erased) — so a
`PagesText` can equal a `PagesXml`; in particular `==` is reflexive. -/
theorem c10_equality_per_family_variant_blind :
    (∀ a b : Sitemap, a.family ≠ b.family → pyEqSitemap a b = .error ()) ∧
    (∀ a b : Sitemap, pyEqSitemap a b = .ok true ↔ a.eraseVariant = b.eraseVariant) ∧
    (∀ s : Sitemap, pyEqSitemap s s = .ok true) := by
  refine ⟨?_, pyEqSitemap_ok_true_iff, ?_⟩
  · intro a b h
    cases a <;> cases b <;> simp [Sitemap.family] at h <;> simp [pyEqSitemap]
  · intro s
    exact (pyEqSitemap_ok_true_iff s s).mpr rfl

/-- Witness for the amended C10: an `Invalid` and a pages sitemap are
in different families, and comparing them raises. -/
theorem c10_equality_per_family_witness :
    (Sitemap.invalid (str "http://a.com/") (str "broken")).family ≠
        (Sitemap.pages .xml (str "http://a.com/") []).family ∧
      pyEqSitemap (.invalid (str "http://a.com/") (str "broken"))
        (.pages .xml (str "http://a.com/") []) = .error () :=
  ⟨by decide,
    c10_equality_per_family_variant_blind.1
      (.invalid (str "http://a.com/") (str "broken"))
      (.pages .xml (str "http://a.com/") []) (by decide)⟩

/-! ## C9: tree root shape -/

/-- The probe fold of `sitemap_tree_for_homepage` extends its
accumulator with exactly the non-`Invalid` level-0 fetch results of
the not-already-referenced paths (soundness of each appended entry and
completeness: every such result is appended). -/
theorem treeFoldExtras (client : WebClient) (fuel : Nat) (homepage : Str) (refs : List Str) :
    ∀ (paths : List Str) (acc extras : List Sitemap),
      paths.foldlM (treeProbeStep client fuel homepage refs) acc = .ok extras →
      ∃ rest, extras = acc ++ rest ∧
        (∀ s ∈ rest, s.isInvalid = false ∧ ∃ path ∈ paths,
          homepage ++ path ∉ refs ∧
          fetchSitemap client fuel (homepage ++ path) 0 = .ok s) ∧
        (∀ path ∈ paths, homepage ++ path ∉ refs →
          ∀ s, fetchSitemap client fuel (homepage ++ path) 0 = .ok s →
          s.isInvalid = false → s ∈ extras)
  | [], acc, extras, hfold => by
    simp only [List.foldlM_nil] at hfold
    have : acc = extras := by simpa [pure, Except.pure] using hfold
    subst this
    exact ⟨[], by simp, by simp, by simp⟩
  | path :: rest, acc, extras, hfold => by
    simp only [List.foldlM_cons] at hfold
    by_cases hmem : homepage ++ path ∈ refs
    · rw [treeProbeStep, if_pos hmem] at hfold
      have hfold' : rest.foldlM (treeProbeStep client fuel homepage refs) acc = .ok extras := by
        simpa [pure, Except.pure, Bind.bind, Except.bind] using hfold
      obtain ⟨r, hr, hprops, hcomplete⟩ := treeFoldExtras client fuel homepage refs rest acc extras hfold'
      refine ⟨r, hr, ?_, ?_⟩
      · intro s hs
        obtain ⟨hinv, p, hp, hnp, hf⟩ := hprops s hs
        exact ⟨hinv, p, List.mem_cons_of_mem _ hp, hnp, hf⟩
      · intro p hp hnp s hf hinv
        rcases List.mem_cons.mp hp with hpeq | hptail
        · subst hpeq; exact absurd hmem hnp
        · exact hcomplete p hptail hnp s hf hinv
    · rw [treeProbeStep, if_neg hmem] at hfold
      cases hf : fetchSitemap client fuel (homepage ++ path) 0 with
      | error e =>
        rw [hf] at hfold
        simp [Bind.bind, Except.bind] at hfold
      | ok s =>
        rw [hf] at hfold
        by_cases hinv : s.isInvalid = true
        · simp only [Bind.bind, Except.bind, hinv, if_true] at hfold
          have hfold' : rest.foldlM (treeProbeStep client fuel homepage refs) acc = .ok extras := by
            simpa [pure, Except.pure] using hfold
          obtain ⟨r, hr, hprops, hcomplete⟩ := treeFoldExtras client fuel homepage refs rest acc extras hfold'
          refine ⟨r, hr, ?_, ?_⟩
          · intro s' hs'
            obtain ⟨hinv', p, hp, hnp, hf'⟩ := hprops s' hs'
            exact ⟨hinv', p, List.mem_cons_of_mem _ hp, hnp, hf'⟩
          · intro p hp hnp s' hf' hinv'
            rcases List.mem_cons.mp hp with hpeq | hptail
            · subst hpeq
              rw [hf] at hf'
              have : s = s' := by simpa using hf'
              subst this
              rw [hinv] at hinv'
              simp at hinv'
            · exact hcomplete p hptail hnp s' hf' hinv'
        · have hinv' : s.isInvalid = false := by simpa using hinv
          simp only [Bind.bind, Except.bind, hinv', Bool.false_eq_true, if_false] at hfold
          have hfold' : rest.foldlM (treeProbeStep client fuel homepage refs) (acc ++ [s]) = .ok extras := by
            simpa [pure, Except.pure] using hfold
          obtain ⟨r, hr, hprops, hcomplete⟩ := treeFoldExtras client fuel homepage refs rest (acc ++ [s]) extras hfold'
          refine ⟨s :: r, by simpa using hr, ?_, ?_⟩
          · intro s' hs'
            rcases List.mem_cons.mp hs' with hseq | hstail
            · subst hseq
              exact ⟨hinv', path, List.mem_cons_self _ _, hmem, hf⟩
            · obtain ⟨hinv'', p, hp, hnp, hf'⟩ := hprops s' hstail
              exact ⟨hinv'', p, List.mem_cons_of_mem _ hp, hnp, hf'⟩
          · intro p hp hnp s' hf' hinv''
            rcases List.mem_cons.mp hp with hpeq | hptail
            · subst hpeq
              rw [hf] at hf'
              have : s = s' := by simpa using hf'
              subst this
              rw [hr]
              exact List.mem_append_left _ (List.mem_append_right _ (by simp))
            · exact hcomplete p hptail hnp s' hf' hinv''


/-- C9: `sitemap_tree_for_homepage` returns an `IndexWebsiteSitemap`
rooted at the stripped homepage whose first child is always the
level-0 fetch-and-parse result of `stripped + "robots.txt"` (appended
even when that result is `Invalid`); every further child is a
non-`Invalid` level-0 fetch result of `stripped + path` for one of the
14 unpublished paths whose URL robots.txt did not already reference,
and conversely every such non-`Invalid` result is appended. -/
theorem c9_tree_root_shape :
    ∀ (client : WebClient) (fuel : Nat) (h : Str) (t : Sitemap),
      sitemapTreeForHomepage client fuel h = .ok t →
      ∃ u robots extras,
        urlparseModel h = some u ∧
        t = .index .website (strippedHomepage u) (robots :: extras) ∧
        fetchSitemap client fuel (strippedHomepage u ++ str "robots.txt") 0 = .ok robots ∧
        (∀ s ∈ extras, s.isInvalid = false ∧ ∃ path ∈ unpublishedSitemapPaths,
          strippedHomepage u ++ path ∉ robotsRefsOf robots ∧
          fetchSitemap client fuel (strippedHomepage u ++ path) 0 = .ok s) ∧
        (∀ path ∈ unpublishedSitemapPaths,
          strippedHomepage u ++ path ∉ robotsRefsOf robots →
          ∀ s, fetchSitemap client fuel (strippedHomepage u ++ path) 0 = .ok s →
          s.isInvalid = false → s ∈ extras) := by
  intro client fuel h t hok
  unfold sitemapTreeForHomepage at hok
  by_cases hh : isHttpUrl h = true
  · simp only [hh, not_true, if_false, Bind.bind, Except.bind, pure, Except.pure] at hok
    split at hok
    · exact absurd hok (by simp [throw, throwThe, MonadExceptOf.throw])
    · rename_i u hu
      split at hok
      · exact absurd hok (by simp)
      · rename_i robots hrob
        split at hok
        · exact absurd hok (by simp)
        · rename_i extras hfold
          have ht : t = .index .website (strippedHomepage u) (robots :: extras) :=
            (Except.ok.inj hok).symm
          obtain ⟨rest, hrest, hprops, hcomplete⟩ :=
            treeFoldExtras client fuel (strippedHomepage u) (robotsRefsOf robots)
              unpublishedSitemapPaths [] extras hfold
          simp only [List.nil_append] at hrest
          subst hrest
          exact ⟨u, robots, extras, hu, ht, hrob, hprops, hcomplete⟩
  · have hh' : isHttpUrl h = false := by simpa using hh
    rw [hh'] at hok
    simp [throw, throwThe, MonadExceptOf.throw, Bind.bind, Except.bind] at hok

/-- Witness for C9: against a client answering 404 to everything, the
tree for `http://w.test/` is a website index whose single child is the
`Invalid` robots.txt result. -/
theorem c9_tree_root_shape_witness :
    ∃ u robots extras,
      urlparseModel (str "http://w.test/") = some u ∧
      Sitemap.index .website (str "http://w.test/")
          [.invalid (str "http://w.test/robots.txt")
            (str "Unable to fetch sitemap from http://w.test/robots.txt: 404 Not Found")] =
        .index .website (strippedHomepage u) (robots :: extras) ∧
      fetchSitemap allErrorClient 1 (strippedHomepage u ++ str "robots.txt") 0 = .ok robots ∧
      (∀ s ∈ extras, s.isInvalid = false ∧ ∃ path ∈ unpublishedSitemapPaths,
        strippedHomepage u ++ path ∉ robotsRefsOf robots ∧
        fetchSitemap allErrorClient 1 (strippedHomepage u ++ path) 0 = .ok s) ∧
      (∀ path ∈ unpublishedSitemapPaths,
        strippedHomepage u ++ path ∉ robotsRefsOf robots →
        ∀ s, fetchSitemap allErrorClient 1 (strippedHomepage u ++ path) 0 = .ok s →
        s.isInvalid = false → s ∈ extras) :=
  c9_tree_root_shape allErrorClient 1 (str "http://w.test/")
    (.index .website (str "http://w.test/")
      [.invalid (str "http://w.test/robots.txt")
        (str "Unable to fetch sitemap from http://w.test/robots.txt: 404 Not Found")])
    (by rfl)

/-! ## C8: `strip_url_to_homepage` on HTTP(S) URLs -/

theorem isHttpUrl_inv (s : List Char) (h : isHttpUrl s = true) :
    s.isEmpty = false ∧ matchUrlRegex s = true ∧
    ∃ u, urlparseModel s = some u ∧ u.scheme.isEmpty = false ∧
      (pyLower u.scheme = str "http" ∨ pyLower u.scheme = str "https") ∧
      hostnameModel u.netloc ≠ none := by
  unfold isHttpUrl at h
  split at h
  · exact absurd h (by simp)
  · rename_i hempty
    split at h
    · exact absurd h (by simp)
    · rename_i hmatch
      split at h
      · exact absurd h (by simp)
      · rename_i u hu
        split at h
        · exact absurd h (by simp)
        · rename_i hsch
          split at h
          · exact absurd h (by simp)
          · rename_i hlow
            refine ⟨by simpa using hempty, by simpa using hmatch, u, hu,
              by simpa using hsch, or_iff_not_imp_left.mpr (by simpa using hlow),
              by simpa using h⟩

theorem matchUrlRegex_inv (s : List Char) (h : matchUrlRegex s = true) :
    ∃ c0 c1 w, dropHttpSchemePart s = some (c0 :: c1 :: w) ∧
      badNetlocFirstChar c0 = false ∧ c1 ≠ '\n' ∧ regexTailMatch w = true := by
  unfold matchUrlRegex at h
  split at h
  · exact absurd h (by simp)
  · rename_i rest hdrop
    split at h
    · rename_i c0 c1 w
      simp only [Bool.and_eq_true, decide_eq_true_eq, Bool.not_eq_true'] at h
      exact ⟨c0, c1, w, hdrop, by simpa using h.1.1, h.1.2, h.2⟩
    · exact absurd h (by simp)

theorem dropHttpSchemePart_structure (s tl : List Char)
    (h : dropHttpSchemePart s = some tl) :
    ∃ L, s = L ++ ':' :: '/' :: '/' :: tl ∧ L ≠ [] ∧
      ∀ c ∈ L, c ∈ schemeLetters := by
  rcases s with _ | ⟨a, _ | ⟨b, _ | ⟨c, _ | ⟨d, rest⟩⟩⟩⟩ <;>
    simp only [dropHttpSchemePart.eq_def, Bool.and_eq_true, Bool.or_eq_true, beq_iff_eq] at h
  · simp at h
  · simp at h
  · simp at h
  · simp at h
  · split at h
    · rename_i hcond
      obtain ⟨⟨⟨ha, hb⟩, hc⟩, hd⟩ := hcond
      split at h
      · rename_i tail
        obtain rfl : tail = tl := by simpa using h
        refine ⟨[a, b, c, d], by simp, by simp, ?_⟩
        intro x hx
        simp only [List.mem_cons, List.not_mem_nil, or_false] at hx
        rcases hx with rfl | rfl | rfl | rfl
        · rcases ha with rfl | rfl <;> decide
        · rcases hb with rfl | rfl <;> decide
        · rcases hc with rfl | rfl <;> decide
        · rcases hd with rfl | rfl <;> decide
      · rename_i e tail
        split at h
        · rename_i he
          obtain rfl : tail = tl := by simpa using h
          refine ⟨[a, b, c, d, e], by simp, by simp, ?_⟩
          intro x hx
          simp only [List.mem_cons, List.not_mem_nil, or_false] at hx
          rcases hx with rfl | rfl | rfl | rfl | rfl
          · rcases ha with rfl | rfl <;> decide
          · rcases hb with rfl | rfl <;> decide
          · rcases hc with rfl | rfl <;> decide
          · rcases hd with rfl | rfl <;> decide
          · rcases he with rfl | rfl <;> decide
        · exact absurd h (by simp)
      · exact absurd h (by simp)
    · exact absurd h (by simp)

theorem findIdx_colon_append_go (L Z : List Char) (h : ∀ c ∈ L, (c == ':') = false) :
    ∀ i, (L ++ ':' :: Z).findIdx? (fun c => c == ':') i = some (L.length + i) := by
  induction L with
  | nil => intro i; simp
  | cons a L ih =>
    intro i
    simp only [List.cons_append, List.findIdx?_cons, h a (List.mem_cons_self a L),
      Bool.false_eq_true, if_false,
      ih (fun c hc => h c (List.mem_cons_of_mem _ hc)) (i + 1), List.length_cons]
    congr 1
    omega

theorem findIdx_colon_append (L Z : List Char) (h : ∀ c ∈ L, (c == ':') = false) :
    (L ++ ':' :: Z).findIdx? (fun c => c == ':') = some L.length := by
  rw [findIdx_colon_append_go L Z h 0]
  simp

theorem schemeLetters_facts (c : Char) (hc : c ∈ schemeLetters) :
    (c == '\t' || c == '\r' || c == '\n') = false ∧ (c == ':') = false ∧
      isC0ControlOrSpace c = false ∧ c.isAlpha = true ∧ isSchemeChar c = true := by
  simp only [schemeLetters, List.mem_cons, List.not_mem_nil, or_false] at hc
  rcases hc with rfl | rfl | rfl | rfl | rfl | rfl | rfl | rfl <;> decide

theorem urlsplitModel_scheme_structure (L tail : List Char)
    (hL : L ≠ []) (hmem : ∀ c ∈ L, c ∈ schemeLetters) :
    urlsplitModel (L ++ ':' :: '/' :: '/' :: tail) =
      urlsplitAfterScheme (pyLower L) ('/' :: '/' :: removeUnsafeBytes tail) := by
  obtain ⟨l0, L', rfl⟩ : ∃ l0 L', L = l0 :: L' := by
    cases L with
    | nil => exact absurd rfl hL
    | cons a b => exact ⟨a, b, rfl⟩
  have hf8 : ∀ c ∈ l0 :: L', _ := fun c hc => schemeLetters_facts c (hmem c hc)
  have hdw : ((l0 :: L') ++ ':' :: '/' :: '/' :: tail).dropWhile isC0ControlOrSpace
      = (l0 :: L') ++ ':' :: '/' :: '/' :: tail := by
    rw [List.cons_append, List.dropWhile_cons, (hf8 l0 (List.mem_cons_self _ _)).2.2.1]
    simp
  have hfil : removeUnsafeBytes ((l0 :: L') ++ ':' :: '/' :: '/' :: tail)
      = (l0 :: L') ++ ':' :: '/' :: '/' :: removeUnsafeBytes tail := by
    unfold removeUnsafeBytes
    rw [List.filter_append]
    congr 1
    exact List.filter_eq_self.mpr (fun a ha => by
      simp [(hf8 a ha).1])
  have hsf : strFindFrom ((l0 :: L') ++ ':' :: '/' :: '/' :: removeUnsafeBytes tail) ':' 0
      = some (L'.length + 1) := by
    unfold strFindFrom
    rw [List.drop_zero,
      findIdx_colon_append (l0 :: L') ('/' :: '/' :: removeUnsafeBytes tail)
        (fun c hc => (hf8 c hc).2.1)]
    simp
  have htake : ((l0 :: L') ++ ':' :: '/' :: '/' :: removeUnsafeBytes tail).take (L'.length + 1)
      = l0 :: L' := by
    exact List.take_left' (by simp)
  have hdrop : ((l0 :: L') ++ ':' :: '/' :: '/' :: removeUnsafeBytes tail).drop (L'.length + 1 + 1)
      = '/' :: '/' :: removeUnsafeBytes tail := by
    have : (l0 :: L') ++ ':' :: '/' :: '/' :: removeUnsafeBytes tail
        = ((l0 :: L') ++ [':']) ++ '/' :: '/' :: removeUnsafeBytes tail := by simp
    rw [this]
    exact List.drop_left' (by simp)
  unfold urlsplitModel
  rw [hdw, hfil]
  simp only [hsf]
  rw [if_pos]
  · rw [htake, hdrop]
  · simp only [Bool.and_eq_true, decide_eq_true_eq]
    refine ⟨⟨Nat.succ_pos _, ?_⟩, ?_⟩
    · rw [show ((l0 :: L') ++ ':' :: '/' :: '/' :: removeUnsafeBytes tail).headD ' ' = l0
        from rfl]
      exact (hf8 l0 (List.mem_cons_self _ _)).2.2.2.1
    · rw [htake]
      rw [show List.drop 1 (l0 :: L') = L' from rfl]
      exact List.all_eq_true.mpr (fun c hc => (hf8 c (List.mem_cons_of_mem _ hc)).2.2.2.2)

theorem safe_of_nonspace (c : Char) (h : pyIsSpace c = false) :
    (c == '\t' || c == '\r' || c == '\n') = false := by
  by_cases h1 : c = '\t'
  · subst h1; simp [pyIsSpace] at h
  by_cases h2 : c = '\r'
  · subst h2; simp [pyIsSpace] at h
  by_cases h3 : c = '\n'
  · subst h3; simp [pyIsSpace] at h
  simp [h1, h2, h3]

theorem nonspace_of_tailmatch (w : List Char) (hw : regexTailMatch w = true) :
    ∀ c ∈ removeUnsafeBytes w, pyIsSpace c = false := by
  intro c hc
  rw [removeUnsafeBytes, List.mem_filter] at hc
  obtain ⟨hmem, hkeep⟩ := hc
  have hcn : c ≠ '\n' := by
    intro h
    subst h
    simp at hkeep
  unfold regexTailMatch at hw
  rcases Bool.or_eq_true _ _ |>.mp hw with hA | hB
  · have := List.all_eq_true.mp hA c hmem
    simpa using this
  · obtain ⟨hlast, hrest⟩ := Bool.and_eq_true _ _ |>.mp hB
    obtain ⟨ys, rfl⟩ : ∃ ys, w = ys ++ ['\n'] := by
      have : w.getLast? = some '\n' := by simpa using hlast
      exact List.getLast?_eq_some_iff.mp this
    rcases List.mem_append.mp hmem with hys | hlast1
    · exact (by simpa using hrest : ∀ x ∈ ys, pyIsSpace x = false) c hys
    · simp only [List.mem_singleton] at hlast1
      exact absurd hlast1 hcn

theorem pyLower_idem_scheme (L : List Char) (hmem : ∀ c ∈ L, c ∈ schemeLetters) :
    pyLower (pyLower L) = pyLower L := by
  unfold pyLower
  rw [List.map_map]
  apply List.map_congr_left
  intro c hc
  have := hmem c hc
  simp only [schemeLetters, List.mem_cons, List.not_mem_nil, or_false] at this
  rcases this with rfl | rfl | rfl | rfl | rfl | rfl | rfl | rfl <;> rfl

theorem mem_takeWhile_pred {α : Type} (p : α → Bool) (l : List α) (x : α)
    (hx : x ∈ l.takeWhile p) : p x = true := List.mem_takeWhile_imp hx

theorem urlsplitAfterScheme_dissect (sch T : List Char) (u : UrlSplitResult)
    (h : urlsplitAfterScheme sch ('/' :: '/' :: T) = some u) :
    u.scheme = sch ∧
    u.netloc = T.takeWhile (fun c => ¬ isNetlocDelim c) ∧
    ∀ sch' : List Char,
      urlsplitAfterScheme sch' ('/' :: '/' :: (u.netloc ++ ['/'])) =
        some { scheme := sch', netloc := u.netloc, path := ['/'],
               query := [], fragment := [] } := by
  have hpre : List.isPrefixOf (str "//") ('/' :: '/' :: T) = true := by
    show List.isPrefixOf ['/', '/'] ('/' :: '/' :: T) = true
    simp [List.isPrefixOf]
  simp only [urlsplitAfterScheme, hpre, eq_self_iff_true, if_true,
    List.drop_succ_cons, List.drop_zero] at h
  split at h
  · exact absurd h (by simp)
  · rename_i hb1
    split at h
    · exact absurd h (by simp)
    · rename_i hb2
      have hu := Option.some.inj h
      subst hu
      refine ⟨rfl, rfl, fun sch' => ?_⟩
      show urlsplitAfterScheme sch'
          ('/' :: '/' :: (List.takeWhile (fun c => ¬ isNetlocDelim c) T ++ ['/'])) =
        some { scheme := sch',
               netloc := List.takeWhile (fun c => ¬ isNetlocDelim c) T,
               path := ['/'], query := [], fragment := [] }
      have hpre' : List.isPrefixOf (str "//")
          ('/' :: '/' :: (List.takeWhile (fun c => ¬ isNetlocDelim c) T ++ ['/'])) = true := by
        show List.isPrefixOf ['/', '/'] _ = true
        simp [List.isPrefixOf]
      have htw : (List.takeWhile (fun c => ¬ isNetlocDelim c) T ++ ['/']).takeWhile
          (fun c => ¬ isNetlocDelim c) = List.takeWhile (fun c => ¬ isNetlocDelim c) T := by
        rw [List.takeWhile_append_of_pos (fun a ha => mem_takeWhile_pred _ T a ha)]
        simp [isNetlocDelim]
      have hdw : (List.takeWhile (fun c => ¬ isNetlocDelim c) T ++ ['/']).dropWhile
          (fun c => ¬ isNetlocDelim c) = ['/'] := by
        rw [List.dropWhile_append_of_pos (fun a ha => mem_takeWhile_pred _ T a ha)]
        decide
      simp only [urlsplitAfterScheme, hpre', eq_self_iff_true, if_true,
        List.drop_succ_cons, List.drop_zero, htw, hdw]
      rw [if_neg hb1, if_neg hb2]
      rfl

theorem filter_cons_pos {α : Type} (p : α → Bool) (a : α) (l : List α) (h : p a = true) :
    (a :: l).filter p = a :: l.filter p := List.filter_cons_of_pos h

theorem filter_cons_neg {α : Type} (p : α → Bool) (a : α) (l : List α) (h : ¬ p a = true) :
    (a :: l).filter p = l.filter p := List.filter_cons_of_neg h

theorem netloc_tail_facts (c1 : Char) (w : List Char) (hc1 : c1 ≠ '\n')
    (hw : regexTailMatch w = true) :
    ∀ e d', (removeUnsafeBytes (c1 :: w)).takeWhile (fun c => ¬ isNetlocDelim c) = e :: d' →
      e ≠ '\n' ∧ ∀ c ∈ d', pyIsSpace c = false := by
  intro e d' hd
  have hW := nonspace_of_tailmatch w hw
  by_cases hkeep : (¬ (c1 == '\t' || c1 == '\r' || c1 == '\n') : Bool) = true
  · rw [show removeUnsafeBytes (c1 :: w) = c1 :: removeUnsafeBytes w by
      unfold removeUnsafeBytes; exact filter_cons_pos _ _ _ hkeep] at hd
    rw [List.takeWhile_cons] at hd
    split at hd
    · have h1 := (List.cons.inj hd).1
      have h2 := (List.cons.inj hd).2
      subst h1
      refine ⟨hc1, fun c hc => ?_⟩
      rw [← h2] at hc
      exact hW c ((List.takeWhile_prefix _).subset hc)
    · exact absurd hd (by simp)
  · rw [show removeUnsafeBytes (c1 :: w) = removeUnsafeBytes w by
      unfold removeUnsafeBytes; exact filter_cons_neg _ _ _ hkeep] at hd
    refine ⟨?_, fun c hc => ?_⟩
    · have he : e ∈ removeUnsafeBytes w := by
        have hm : e ∈ e :: d' := List.mem_cons_self _ _
        rw [← hd] at hm
        exact (List.takeWhile_prefix _).subset hm
      intro hcon
      subst hcon
      have := hW _ he
      simp [pyIsSpace] at this
    · have hc2 : c ∈ removeUnsafeBytes w := by
        have hm : c ∈ e :: d' := List.mem_cons_of_mem _ hc
        rw [← hd] at hm
        exact (List.takeWhile_prefix _).subset hm
      exact hW c hc2

theorem isHttpUrl_strip_result (SCH netloc : List Char) (c0 : Char) (d : List Char)
    (hSCH : SCH = str "http" ∨ SCH = str "https")
    (hnet : netloc = c0 :: d)
    (hbad : badNetlocFirstChar c0 = false)
    (hdfacts : ∀ e d', d = e :: d' → e ≠ '\n' ∧ ∀ c ∈ d', pyIsSpace c = false)
    (hsafe : ∀ c ∈ netloc, (c == '\t' || c == '\r' || c == '\n') = false)
    (hreparse : ∀ sch' : List Char, urlsplitAfterScheme sch' ('/' :: '/' :: (netloc ++ ['/'])) =
        some { scheme := sch', netloc := netloc, path := ['/'], query := [], fragment := [] })
    (hhost : hostnameModel netloc ≠ none) :
    isHttpUrl (SCH ++ str "://" ++ netloc ++ str "/") = true := by
  have hclean : removeUnsafeBytes (netloc ++ ['/']) = netloc ++ ['/'] := by
    unfold removeUnsafeBytes
    refine List.filter_eq_self.mpr (fun a ha => ?_)
    rcases List.mem_append.mp ha with h1 | h1
    · simpa using hsafe a h1
    · simp only [List.mem_singleton] at h1; subst h1; decide
  have hmtail : ∀ X : List Char, matchUrlRegex X = true →
      ∀ Y, dropHttpSchemePart Y = some (netloc ++ ['/']) → True := fun _ _ _ _ => trivial
  clear hmtail
  have hmatch2 : (match netloc ++ ['/'] with
      | c0' :: c1' :: w' => ¬ badNetlocFirstChar c0' && c1' ≠ '\n' && regexTailMatch w'
      | _ => false) = true := by
    rw [hnet]
    rcases d with _ | ⟨e, d'⟩
    · simp only [List.cons_append, List.nil_append]
      simp [hbad, regexTailMatch]
    · obtain ⟨he, hd'⟩ := hdfacts e d' rfl
      simp only [List.cons_append]
      have ht : regexTailMatch (d' ++ ['/']) = true := by
        unfold regexTailMatch
        refine (Bool.or_eq_true _ _).mpr (Or.inl ?_)
        apply List.all_eq_true.mpr
        intro c hc
        rcases List.mem_append.mp hc with h1 | h1
        · simpa using hd' c h1
        · simp only [List.mem_singleton] at h1; subst h1; decide
      simp [hbad, he, ht]
  rcases hSCH with rfl | rfl
  · have hr : str "http" ++ str "://" ++ netloc ++ str "/"
        = str "http" ++ ':' :: '/' :: '/' :: (netloc ++ ['/']) := by simp [str]
    have hsplitm := urlsplitModel_scheme_structure (str "http") (netloc ++ ['/'])
      (by decide) (by decide)
    have hre := hreparse (pyLower (str "http"))
    have hfinal : urlparseModel (str "http" ++ str "://" ++ netloc ++ str "/") =
        some { scheme := str "http", netloc := netloc, path := ['/'],
               query := [], fragment := [] } := by
      unfold urlparseModel
      rw [hr, hsplitm, hclean, hre]
      rfl
    have hm : matchUrlRegex (str "http" ++ str "://" ++ netloc ++ str "/") = true := by
      rw [hr]
      unfold matchUrlRegex
      rw [show dropHttpSchemePart (str "http" ++ ':' :: '/' :: '/' :: (netloc ++ ['/'])) =
          some (netloc ++ ['/']) from rfl]
      exact hmatch2
    unfold isHttpUrl
    rw [show (str "http" ++ str "://" ++ netloc ++ str "/").isEmpty = false from rfl]
    rw [hm, hfinal]
    simp [str, pyLower, pyToLower, Option.isNone_iff_eq_none, hhost]
  · have hr : str "https" ++ str "://" ++ netloc ++ str "/"
        = str "https" ++ ':' :: '/' :: '/' :: (netloc ++ ['/']) := by simp [str]
    have hsplitm := urlsplitModel_scheme_structure (str "https") (netloc ++ ['/'])
      (by decide) (by decide)
    have hre := hreparse (pyLower (str "https"))
    have hfinal : urlparseModel (str "https" ++ str "://" ++ netloc ++ str "/") =
        some { scheme := str "https", netloc := netloc, path := ['/'],
               query := [], fragment := [] } := by
      unfold urlparseModel
      rw [hr, hsplitm, hclean, hre]
      rfl
    have hm : matchUrlRegex (str "https" ++ str "://" ++ netloc ++ str "/") = true := by
      rw [hr]
      unfold matchUrlRegex
      rw [show dropHttpSchemePart (str "https" ++ ':' :: '/' :: '/' :: (netloc ++ ['/'])) =
          some (netloc ++ ['/']) from rfl]
      exact hmatch2
    unfold isHttpUrl
    rw [show (str "https" ++ str "://" ++ netloc ++ str "/").isEmpty = false from rfl]
    rw [hm, hfinal]
    simp [str, pyLower, pyToLower, Option.isNone_iff_eq_none, hhost]

/-- C8: for every string `s`, if `is_http_url(s)` returns `True` then
`strip_url_to_homepage(s)` does not raise, returns
`scheme://netloc/` built from `s`'s parsed scheme and netloc, and the
returned string itself satisfies `is_http_url`. -/
theorem c8_strip_preserves_http (s : List Char) (h : isHttpUrl s = true) :
    ∃ u, urlparseModel s = some u ∧
      stripUrlToHomepage s = some (u.scheme ++ str "://" ++ u.netloc ++ str "/") ∧
      isHttpUrl (u.scheme ++ str "://" ++ u.netloc ++ str "/") = true := by
  obtain ⟨hempty, hmatch, u, hu, hschne, hlow, hhost⟩ := isHttpUrl_inv s h
  have hup := hu
  obtain ⟨c0, c1, w, hdropS, hbad, hc1, hw⟩ := matchUrlRegex_inv s hmatch
  obtain ⟨L, hs, hLne, hLmem⟩ := dropHttpSchemePart_structure s _ hdropS
  have hsm := urlsplitModel_scheme_structure L (c0 :: c1 :: w) hLne hLmem
  have hbad' := hbad
  simp only [badNetlocFirstChar, Bool.or_eq_false_iff] at hbad'
  have hc0space : pyIsSpace c0 = false := hbad'.1.1.1.1.1
  have hc0safe : (c0 == '\t' || c0 == '\r' || c0 == '\n') = false :=
    safe_of_nonspace c0 hc0space
  have hdelim : isNetlocDelim c0 = false := by
    unfold isNetlocDelim
    simp [hbad'.1.1.1.1.2, hbad'.1.2, hbad'.2]
  have hcw : removeUnsafeBytes (c0 :: c1 :: w) = c0 :: removeUnsafeBytes (c1 :: w) := by
    unfold removeUnsafeBytes
    exact filter_cons_pos _ _ _ (by simp [hc0safe])
  rw [hs] at hu
  unfold urlparseModel at hu
  rw [hsm, hcw] at hu
  cases husp : urlsplitAfterScheme (pyLower L)
      ('/' :: '/' :: (c0 :: removeUnsafeBytes (c1 :: w))) with
  | none => rw [husp] at hu; simp at hu
  | some u0 =>
    rw [husp] at hu
    simp only [Option.some.injEq] at hu
    obtain ⟨hu0sch, hu0net, hreparse⟩ := urlsplitAfterScheme_dissect _ _ _ husp
    have hunet : u.netloc = u0.netloc := by rw [← hu]
    have husch : u.scheme = u0.scheme := by rw [← hu]
    have hnet0 : u0.netloc
        = c0 :: (removeUnsafeBytes (c1 :: w)).takeWhile (fun c => ¬ isNetlocDelim c) := by
      rw [hu0net, List.takeWhile_cons, if_pos (by simp [hdelim])]
    have hidem : pyLower u.scheme = u.scheme := by
      rw [husch, hu0sch]
      exact pyLower_idem_scheme L hLmem
    have hscheme : u.scheme = str "http" ∨ u.scheme = str "https" := by
      rcases hlow with h1 | h1
      · exact Or.inl (hidem.symm.trans h1)
      · exact Or.inr (hidem.symm.trans h1)
    have hnet : u.netloc
        = c0 :: (removeUnsafeBytes (c1 :: w)).takeWhile (fun c => ¬ isNetlocDelim c) :=
      hunet.trans hnet0
    have hsafe : ∀ c ∈ u.netloc, (c == '\t' || c == '\r' || c == '\n') = false := by
      intro c hc
      rw [hnet] at hc
      rcases List.mem_cons.mp hc with rfl | hc2
      · exact hc0safe
      · have hcf : c ∈ removeUnsafeBytes (c1 :: w) :=
          (List.takeWhile_prefix _).subset hc2
        unfold removeUnsafeBytes at hcf
        have := (List.mem_filter.mp hcf).2
        simpa using this
    rw [← hunet] at hreparse
    have hstrip : stripUrlToHomepage s = some (urlunparseHomepage u.scheme u.netloc) := by
      unfold stripUrlToHomepage
      simp only [hempty, Bool.false_eq_true, if_false, hup]
      rw [hschne]
      rw [if_neg (by simp)]
      rw [if_neg (by rcases hlow with h1 | h1 <;> simp [h1])]
    have hnetne : u.netloc.isEmpty = false := by rw [hnet]; rfl
    have hform : urlunparseHomepage u.scheme u.netloc
        = u.scheme ++ str "://" ++ u.netloc ++ str "/" := by
      unfold urlunparseHomepage
      rw [hnetne, hschne]
      simp only [Bool.false_eq_true, if_false]
      have e1 : str ":" = [':'] := rfl
      have e2 : str "//" = ['/', '/'] := rfl
      have e3 : str "://" = [':', '/', '/'] := rfl
      simp [e1, e2, e3, List.append_assoc]
    refine ⟨u, hup, ?_, ?_⟩
    · rw [hstrip, hform]
    · exact isHttpUrl_strip_result u.scheme u.netloc c0 _ hscheme hnet hbad
        (netloc_tail_facts c1 w hc1 hw) hsafe hreparse hhost

/-- Witness for C8 at the concrete URL `http://a.com/x`. -/
theorem c8_strip_preserves_http_witness :
    ∃ u, urlparseModel (str "http://a.com/x") = some u ∧
      stripUrlToHomepage (str "http://a.com/x")
        = some (u.scheme ++ str "://" ++ u.netloc ++ str "/") ∧
      isHttpUrl (u.scheme ++ str "://" ++ u.netloc ++ str "/") = true :=
  c8_strip_preserves_http (str "http://a.com/x") (by rfl)

end USP
